import Mathlib

/-!
Verification of `src/motiga/core/factory.py`: pymel attribute-accessor helpers.

The scene graph owned by the host API (pymel/Maya) is modelled as an
association list from (node name, attribute name) to an attribute state
(declared storage type, stored scalar value, inbound connection list).
Each helper function of the source file is translated into a Lean function
over this scene model.  Getters return a `PyVal × Scene` pair: the Python
return value together with the scene after the call (the getters of the
source only invoke query primitives, so they return the scene unchanged,
which is exactly what the frame claims assert).  Setters return the new
scene.

`json.dumps` / `json.loads(..., object_pairs_hook=OrderedDict)` from the
Python standard library are modelled by an executable JSON serializer and
parser over an order-preserving JSON value type (`Json`).  Numbers are
modelled as integers; `dumps` uses Python's default separators
(`", "` and `": "`) and escapes `"`, `\` and control characters, and the
parser decodes exactly those escapes, skips whitespace, and collapses
duplicate object keys the way `OrderedDict(pairs)` does (first position,
last value).
-/

/-- Order-preserving JSON values (`object_pairs_hook=collections.OrderedDict`
keeps object entries as an ordered sequence of pairs).  Numbers are modelled
as integers. -/
inductive Json where
  | null : Json
  | bool : Bool → Json
  | int : Int → Json
  | str : String → Json
  | arr : List Json → Json
  | obj : List (String × Json) → Json

/-- Decimal digit character for a digit value below 10. -/
def digitChar (d : Nat) : Char := Char.ofNat (48 + d)

/-- Digit-emitting loop: prepend the decimal digits of `n` (most
significant first) to `acc`; the fuel is an upper bound on the number of
digits. -/
def printNatAux : Nat → Nat → List Char → List Char
  | 0, _, acc => acc
  | fuel + 1, n, acc =>
    if n = 0 then acc else printNatAux fuel (n / 10) (digitChar (n % 10) :: acc)

/-- Decimal representation of a natural number, most significant digit
first, as produced by Python's `str`. -/
def printNat (n : Nat) : List Char :=
  if n = 0 then ['0'] else printNatAux (n + 1) n []

/-- Decimal representation of an integer as produced by Python's `str`. -/
def dumpInt : Int → List Char
  | Int.ofNat m => printNat m
  | Int.negSucc m => '-' :: printNat (m + 1)

/-- Lower-case hexadecimal digit character for a value below 16. -/
def hexDigitChar (n : Nat) : Char :=
  Char.ofNat (if n < 10 then 48 + n else 87 + n)

/-- JSON string escaping of one character, as `json.dumps` performs it:
quote, backslash and the common control characters get two-character
escapes, remaining control characters get a `\u00xx` escape, and every
other character is emitted literally. -/
def escapeChar (c : Char) : List Char :=
  if c = '\"' then ['\\', '\"']
  else if c = '\\' then ['\\', '\\']
  else if c = '\n' then ['\\', 'n']
  else if c = '\t' then ['\\', 't']
  else if c = '\r' then ['\\', 'r']
  else if c = '\x08' then ['\\', 'b']
  else if c = '\x0c' then ['\\', 'f']
  else if c.toNat < 32 then
    ['\\', 'u', '0', '0', hexDigitChar (c.toNat / 16), hexDigitChar (c.toNat % 16)]
  else [c]

/-- Escape a whole string body. -/
def escList : List Char → List Char
  | [] => []
  | c :: cs => escapeChar c ++ escList cs

/-- Serialized JSON string literal (opening quote, escaped body, closing
quote). -/
def dumpStr (s : String) : List Char := '\"' :: (escList s.data ++ ['\"'])

mutual

/-- Serialization of a JSON value, character for character what
`json.dumps` produces with its default separators. -/
def dumpJson : Json → List Char
  | Json.null => ['n', 'u', 'l', 'l']
  | Json.bool true => ['t', 'r', 'u', 'e']
  | Json.bool false => ['f', 'a', 'l', 's', 'e']
  | Json.int n => dumpInt n
  | Json.str s => dumpStr s
  | Json.arr xs => '[' :: (dumpArr xs ++ [']'])
  | Json.obj m => '\x7b' :: (dumpObj m ++ ['\x7d'])

/-- Comma-separated serialization of array elements. -/
def dumpArr : List Json → List Char
  | [] => []
  | x :: xs => dumpJson x ++ dumpArrRest xs

/-- The remaining array elements, each preceded by `", "`. -/
def dumpArrRest : List Json → List Char
  | [] => []
  | x :: xs => ',' :: ' ' :: (dumpJson x ++ dumpArrRest xs)

/-- Comma-separated serialization of object members (`"key": value`). -/
def dumpObj : List (String × Json) → List Char
  | [] => []
  | (k, v) :: tl => dumpStr k ++ (':' :: ' ' :: dumpJson v) ++ dumpObjRest tl

/-- The remaining object members, each preceded by `", "`. -/
def dumpObjRest : List (String × Json) → List Char
  | [] => []
  | (k, v) :: tl => ',' :: ' ' :: (dumpStr k ++ (':' :: ' ' :: dumpJson v)) ++ dumpObjRest tl

end

/-- `json.dumps(value)`. -/
def dumps (j : Json) : String := String.mk (dumpJson j)

/-- Whitespace characters skipped by the JSON decoder. -/
def isWsChar (c : Char) : Bool :=
  c = ' ' || c = '\t' || c = '\n' || c = '\r'

/-- Drop leading JSON whitespace. -/
def skipWs : List Char → List Char
  | [] => []
  | c :: cs => if isWsChar c then skipWs cs else c :: cs

/-- Consume an expected literal sequence of characters. -/
def expectChars : List Char → List Char → Option (List Char)
  | [], cs => some cs
  | _ :: _, [] => none
  | p :: ps, c :: cs => if c = p then expectChars ps cs else none

/-- Value of one hexadecimal digit character (either case accepted). -/
def hexVal (c : Char) : Option Nat :=
  if c.isDigit then some (c.toNat - 48)
  else if 'a' ≤ c && c ≤ 'f' then some (c.toNat - 87)
  else if 'A' ≤ c && c ≤ 'F' then some (c.toNat - 55)
  else none

/-- Decoding of the two-character escapes. -/
def escSimple (e : Char) : Option Char :=
  if e = '\"' then some '\"'
  else if e = '\\' then some '\\'
  else if e = '/' then some '/'
  else if e = 'n' then some '\n'
  else if e = 't' then some '\t'
  else if e = 'r' then some '\r'
  else if e = 'b' then some '\x08'
  else if e = 'f' then some '\x0c'
  else none

/-- Parse the body of a JSON string literal after its opening quote,
returning the decoded characters and the input after the closing quote. -/
def parseStringRest : List Char → Option (List Char × List Char)
  | [] => none
  | c :: cs =>
    if c = '\"' then some ([], cs)
    else if c = '\\' then
      match cs with
      | [] => none
      | e :: cs2 =>
        if e = 'u' then
          match cs2 with
          | h1 :: h2 :: h3 :: h4 :: cs3 =>
            match hexVal h1, hexVal h2, hexVal h3, hexVal h4 with
            | some a, some b, some c2, some d =>
              (parseStringRest cs3).map
                (fun p => (Char.ofNat (((a * 16 + b) * 16 + c2) * 16 + d) :: p.1, p.2))
            | _, _, _, _ => none
          | _ => none
        else
          match escSimple e with
          | some ch => (parseStringRest cs2).map (fun p => (ch :: p.1, p.2))
          | none => none
    else (parseStringRest cs).map (fun p => (c :: p.1, p.2))

/-- Accumulating decimal-digit parser; stops at the first non-digit. -/
def parseDigits : Nat → List Char → Nat × List Char
  | acc, [] => (acc, [])
  | acc, c :: cs =>
    if c.isDigit then parseDigits (acc * 10 + (c.toNat - 48)) cs else (acc, c :: cs)

/-- `OrderedDict(pairs)`: later values for an existing key replace the
stored value in place, new keys are appended. -/
def ordSet (d : List (String × Json)) (k : String) (v : Json) : List (String × Json) :=
  if (d.find? (fun e => e.1 = k)).isSome then
    d.map (fun e => if e.1 = k then (e.1, v) else e)
  else d ++ [(k, v)]

/-- Fold a pair list into an ordered mapping, the way
`collections.OrderedDict(pairs)` does. -/
def odFromPairs (pairs : List (String × Json)) : List (String × Json) :=
  pairs.foldl (fun d kv => ordSet d kv.1 kv.2) []

/-- `dict.update(other)` on order-preserving dictionaries: existing keys
keep their position and receive the new value, new keys are appended. -/
def dictUpdate (d other : List (String × Json)) : List (String × Json) :=
  other.foldl (fun acc kv => ordSet acc kv.1 kv.2) d

mutual

/-- Fuel-indexed JSON value parser (the fuel bounds the nesting of the
recursive-descent decoder; `loads` supplies more fuel than any input can
need). -/
def parseVal : Nat → List Char → Option (Json × List Char)
  | 0, _ => none
  | fuel + 1, cs0 =>
    match skipWs cs0 with
    | [] => none
    | c :: cs =>
      if c = 'n' then (expectChars ['u', 'l', 'l'] cs).map (fun r => (Json.null, r))
      else if c = 't' then (expectChars ['r', 'u', 'e'] cs).map (fun r => (Json.bool true, r))
      else if c = 'f' then (expectChars ['a', 'l', 's', 'e'] cs).map (fun r => (Json.bool false, r))
      else if c = '\"' then
        (parseStringRest cs).map (fun p => (Json.str (String.mk p.1), p.2))
      else if c = '[' then
        match skipWs cs with
        | [] => none
        | c2 :: cs2 =>
          if c2 = ']' then some (Json.arr [], cs2)
          else (parseElems fuel (c2 :: cs2)).map (fun p => (Json.arr p.1, p.2))
      else if c = '\x7b' then
        match skipWs cs with
        | [] => none
        | c2 :: cs2 =>
          if c2 = '\x7d' then some (Json.obj [], cs2)
          else (parseMembers fuel (c2 :: cs2)).map (fun p => (Json.obj (odFromPairs p.1), p.2))
      else if c = '-' then
        match cs with
        | [] => none
        | d :: ds =>
          if d.isDigit then
            some (Json.int (-((parseDigits 0 (d :: ds)).1 : Int)), (parseDigits 0 (d :: ds)).2)
          else none
      else if c.isDigit then
        some (Json.int ((parseDigits 0 (c :: cs)).1 : Int), (parseDigits 0 (c :: cs)).2)
      else none

/-- Parse the comma-separated elements of a non-empty array, up to and
including the closing bracket. -/
def parseElems : Nat → List Char → Option (List Json × List Char)
  | 0, _ => none
  | fuel + 1, cs =>
    match parseVal fuel cs with
    | none => none
    | some (j, r) =>
      match skipWs r with
      | [] => none
      | c :: r2 =>
        if c = ',' then (parseElems fuel r2).map (fun p => (j :: p.1, p.2))
        else if c = ']' then some ([j], r2)
        else none

/-- Parse the comma-separated members of a non-empty object, up to and
including the closing brace; returns the raw key/value pairs. -/
def parseMembers : Nat → List Char → Option (List (String × Json) × List Char)
  | 0, _ => none
  | fuel + 1, cs =>
    match skipWs cs with
    | [] => none
    | c :: cs2 =>
      if c = '\"' then
        match parseStringRest cs2 with
        | none => none
        | some (k, r) =>
          match skipWs r with
          | [] => none
          | c2 :: r2 =>
            if c2 = ':' then
              match parseVal fuel r2 with
              | none => none
              | some (v, r3) =>
                match skipWs r3 with
                | [] => none
                | c3 :: r4 =>
                  if c3 = ',' then
                    (parseMembers fuel r4).map (fun p => ((String.mk k, v) :: p.1, p.2))
                  else if c3 = '\x7d' then some ([(String.mk k, v)], r4)
                  else none
            else none
      else none

end

/-- `json.loads(s, object_pairs_hook=collections.OrderedDict)`: parse one
JSON value with surrounding whitespace allowed; trailing data is an
error (`none` models the raised exception). -/
def loads (s : String) : Option Json :=
  match parseVal (s.data.length + 1) s.data with
  | some (j, rest) => if skipWs rest = [] then some j else none
  | none => none

/-- Python runtime values that flow through the accessors: `None`, strings,
integers, floats (modelled as rationals) and pymel nodes (identified by
name). -/
inductive PyVal where
  | none : PyVal
  | str : String → PyVal
  | int : Int → PyVal
  | float : Rat → PyVal
  | node : String → PyVal
deriving DecidableEq

/-- Python truthiness of the values above (`if not res: ...`). -/
def PyVal.falsy : PyVal → Bool
  | PyVal.none => true
  | PyVal.str s => s = ""
  | PyVal.int n => n = 0
  | PyVal.float q => q = 0
  | PyVal.node _ => false

/-- The storage type declared when the attribute is created
(`dt='string'`, `dt='long'`, `dt='double'`, `at='message'`). -/
inductive AttrType where
  | string : AttrType
  | long : AttrType
  | double : AttrType
  | message : AttrType
deriving DecidableEq

/-- State of one attribute slot: declared type, stored scalar value
(`PyVal.none` when never set), and the inbound connection list as
`listConnections` reports it. -/
structure AttrState where
  ty : AttrType
  val : PyVal
  conns : List String
deriving DecidableEq

/-- The external scene graph: a finite map from (node name, attribute
name) to the attribute's state.  An absent key is an attribute that does
not exist. -/
def Scene : Type := List ((String × String) × AttrState)

/-- Look up an attribute slot. -/
def Scene.find : Scene → (String × String) → Option AttrState
  | [], _ => Option.none
  | e :: s, k => if e.1 = k then some e.2 else Scene.find s k

/-- `obj.hasAttr(attrName)` / `hasAttr(obj, attrName)`. -/
def Scene.hasAttr (s : Scene) (obj a : String) : Bool :=
  (Scene.find s (obj, a)).isSome

/-- `obj.addAttr(attrName, ...)`: create the attribute with the declared
storage type, no stored value and no connections. -/
def Scene.addAttr (s : Scene) (obj a : String) (t : AttrType) : Scene :=
  ((obj, a), AttrState.mk t PyVal.none []) :: s

/-- Apply `f` to the state of attribute `k`. -/
def Scene.modify (s : Scene) (k : String × String) (f : AttrState → AttrState) : Scene :=
  s.map (fun e => if e.1 = k then (e.1, f e.2) else e)

/-- `obj.attr(attrName).set(v)`. -/
def Scene.setVal (s : Scene) (obj a : String) (v : PyVal) : Scene :=
  Scene.modify s (obj, a) (fun st => AttrState.mk st.ty v st.conns)

/-- `source.message >> obj.attr(attrName)`: pymel connects with
`force=True`, so the destination's inbound connection list becomes exactly
the new source. -/
def Scene.connect (s : Scene) (obj a : String) (src : String) : Scene :=
  Scene.modify s (obj, a) (fun st => AttrState.mk st.ty st.val [src])

/-- `obj.attr(attrName).disconnect()`. -/
def Scene.disconnect (s : Scene) (obj a : String) : Scene :=
  Scene.modify s (obj, a) (fun st => AttrState.mk st.ty st.val [])

/-- `obj.attr(attrName).listConnections()` (empty for a missing
attribute; the code only queries it on existing attributes). -/
def Scene.listConnections (s : Scene) (obj a : String) : List String :=
  match Scene.find s (obj, a) with
  | some st => st.conns
  | Option.none => []

/-- `obj.attr(attrName).get()`: the stored value (`PyVal.none` when the
attribute was created but never written). -/
def Scene.attrVal (s : Scene) (obj a : String) : PyVal :=
  match Scene.find s (obj, a) with
  | some st => st.val
  | Option.none => PyVal.none

/-- Values accepted by the connection setters: `None`, a node name string,
or a pymel node. -/
inductive SSVal where
  | pynone : SSVal
  | str : String → SSVal
  | node : String → SSVal
deriving DecidableEq

/-- Python truthiness of a connection-setter argument (`if value:`). -/
def SSVal.truthy : SSVal → Bool
  | SSVal.pynone => false
  | SSVal.str s => !(s = "" : Bool)
  | SSVal.node _ => true

/-- `_getSingleConnection(obj, attrName)` (the leading underscore of the
Python helpers is dropped in the Lean names): if connected, return the
single entry, otherwise None. -/
def getSingleConnection (obj a : String) (s : Scene) : PyVal × Scene :=
  if !(Scene.hasAttr s obj a) then (PyVal.none, s)
  else
    match Scene.listConnections s obj a with
    | c :: _ => (PyVal.node c, s)
    | [] => (PyVal.none, s)

/-- `messageAttr(obj, name)`: make the attribute if it doesn't exist (the
returned attribute is identified by `(obj, name)`). -/
def messageAttr (obj a : String) (s : Scene) : Scene :=
  if !(Scene.hasAttr s obj a) then Scene.addAttr s obj a AttrType.message else s

/-- `_setSingleConnection(obj, attrName, value)`. -/
def setSingleConnection (obj a : String) (value : SSVal) (s : Scene) : Scene :=
  if value.truthy then
    match value with
    | SSVal.str name => Scene.connect (messageAttr obj a s) obj a name
    | SSVal.node n => Scene.connect (messageAttr obj a s) obj a n
    | SSVal.pynone => s
  else
    if Scene.hasAttr s obj a then Scene.disconnect s obj a else s

/-- `_getSingleStringConnection(obj, attrName)`: if connected, return the
single entry, otherwise the stored string value ('' when the attribute is
missing). -/
def getSingleStringConnection (obj a : String) (s : Scene) : PyVal × Scene :=
  if !(Scene.hasAttr s obj a) then (PyVal.str "", s)
  else
    match Scene.listConnections s obj a with
    | c :: _ => (PyVal.node c, s)
    | [] => (Scene.attrVal s obj a, s)

/-- `_getStringAttr(obj, attrName)`. -/
def getStringAttr (obj a : String) (s : Scene) : PyVal × Scene :=
  if Scene.hasAttr s obj a then (Scene.attrVal s obj a, s) else (PyVal.str "", s)

/-- `_setStringAttr(obj, attrName, val)`: ensure the attribute exists as a
string attribute, then write unless the value is None. -/
def setStringAttr (obj a : String) (val : Option String) (s : Scene) : Scene :=
  let s1 := if !(Scene.hasAttr s obj a) then Scene.addAttr s obj a AttrType.string else s
  match val with
  | some v => Scene.setVal s1 obj a (PyVal.str v)
  | Option.none => s1

/-- `_setSingleStringConnection(obj, attrName, value)`. -/
def setSingleStringConnection (obj a : String) (value : SSVal) (s : Scene) : Scene :=
  if value.truthy then
    match value with
    | SSVal.str v =>
      let s1 :=
        if Scene.hasAttr s obj a && !(Scene.listConnections s obj a).isEmpty then
          Scene.disconnect s obj a
        else s
      setStringAttr obj a (some v) s1
    | SSVal.node n => Scene.connect (setStringAttr obj a Option.none s) obj a n
    | SSVal.pynone => s
  else
    if Scene.hasAttr s obj a then
      Scene.setVal (Scene.disconnect s obj a) obj a (PyVal.str "")
    else s

/-- `_getIntAttr(obj, attrName)`. -/
def getIntAttr (obj a : String) (s : Scene) : PyVal × Scene :=
  if Scene.hasAttr s obj a then (Scene.attrVal s obj a, s) else (PyVal.int (-666), s)

/-- `_setIntAttr(obj, attrName, val)`. -/
def setIntAttr (obj a : String) (val : Option Int) (s : Scene) : Scene :=
  let s1 := if !(Scene.hasAttr s obj a) then Scene.addAttr s obj a AttrType.long else s
  match val with
  | some v => Scene.setVal s1 obj a (PyVal.int v)
  | Option.none => s1

/-- `_getFloatAttr(obj, attrName)`. -/
def getFloatAttr (obj a : String) (s : Scene) : PyVal × Scene :=
  if Scene.hasAttr s obj a then (Scene.attrVal s obj a, s) else (PyVal.float (-666.666), s)

/-- `_setFloatAttr(obj, attrName, val)`. -/
def setFloatAttr (obj a : String) (val : Option Rat) (s : Scene) : Scene :=
  let s1 := if !(Scene.hasAttr s obj a) then Scene.addAttr s obj a AttrType.double else s
  match val with
  | some v => Scene.setVal s1 obj a (PyVal.float v)
  | Option.none => s1

/-- `JsonAccess.__get__`: read the string attribute, return an empty
mapping when the result is falsy, otherwise decode it; `none` models a
raised exception (malformed JSON / non-string value). -/
def jsonAccessGet (obj a : String) (s : Scene) : Option Json × Scene :=
  let res := (getStringAttr obj a s).1
  if res.falsy then (some (Json.obj []), s)
  else
    match res with
    | PyVal.str str => (loads str, s)
    | _ => (Option.none, s)

/-- `JsonAccess.__set__`: serialize and store through `_setStringAttr`. -/
def jsonAccessSet (obj a : String) (value : Json) (s : Scene) : Scene :=
  setStringAttr obj a (some (dumps value)) s

/-- Values stored in a `ProxyDict` instance's `__dict__` or in its wrapped
dictionary: the wrapped ordered dictionary `d`, the owner node `inst`,
the attribute name `attr`, or a plain JSON value. -/
inductive PDVal where
  | dict : List (String × Json) → PDVal
  | node : String → PDVal
  | aname : String → PDVal
  | jval : Json → PDVal

/-- Instance `__dict__` lookup. -/
def pdLookup (inst : List (String × PDVal)) (x : String) : Option PDVal :=
  (List.find? (fun e => decide (e.1 = x)) inst).map (fun e => e.2)

/-- Attribute lookup on a `ProxyDict` instance.  Normal lookup checks
`__dict__`; on failure Python calls `ProxyDict.__getattr__`, whose body
`return self.d[a]` first looks up `self.d` — the very same attribute
lookup — so the recursion is fuel-bounded and `none` models the
`RecursionError` (or a `KeyError`/`TypeError`) the interpreter raises. -/
def pdGetattr : Nat → List (String × PDVal) → String → Option PDVal
  | 0, _, _ => Option.none
  | fuel + 1, inst, x =>
    match pdLookup inst x with
    | some v => some v
    | Option.none =>
      match pdGetattr fuel inst "d" with
      | some (PDVal.dict d) =>
        (List.find? (fun e => decide (e.1 = x)) d).map (fun e => PDVal.jval e.2)
      | some _ => Option.none
      | Option.none => Option.none

/-- Conversion performed implicitly by `json.dumps(self.d)`: node values
are not JSON-serializable (`none` models the raised `TypeError`). -/
def pdvToJson : PDVal → Option Json
  | PDVal.jval j => some j
  | PDVal.dict d => some (Json.obj d)
  | PDVal.node _ => Option.none
  | PDVal.aname a => some (Json.str a)

/-- `ProxyDict.__setattr__(self, a, v)`: `self.d[a] = v` followed by
`_setStringAttr(self.inst, self.attr, json.dumps(self.d))`.  The first
step already requires `pdGetattr` on `"d"`; with the always-empty
instance `__dict__` this never succeeds, so the remaining steps (written
out for faithfulness) are unreachable in the embedded code. -/
def pdSetattr (fuel : Nat) (inst : List (String × PDVal)) (a : String) (v : PDVal)
    (obj attrN : String) (s : Scene) : Option (List (String × PDVal) × Scene) :=
  match pdGetattr fuel inst "d" with
  | Option.none => Option.none
  | some (PDVal.dict d) =>
    match pdvToJson v with
    | Option.none => Option.none
    | some jv =>
      let d2 := ordSet d a jv
      let inst2 := inst.map (fun e => if e.2 matches PDVal.dict _ then (e.1, PDVal.dict d2) else e)
      match pdGetattr fuel inst2 "inst", pdGetattr fuel inst2 "attr" with
      | some (PDVal.node _), some (PDVal.aname an) =>
        some (inst2, setStringAttr obj an (some (dumps (Json.obj d2))) s)
      | _, _ => some (inst2, setStringAttr obj attrN (some (dumps (Json.obj d2))) s)
  | some _ => Option.none

/-- `ProxyDict.__init__(self, d, inst, attr)`: the three assignments
`self.d = d`, `self.inst = inst`, `self.attr = attr`, each routed through
the overridden `__setattr__`, starting from an empty `__dict__`. -/
def proxyDictInit (fuel : Nat) (d : List (String × Json)) (inst attrN : String)
    (s : Scene) : Option (List (String × PDVal) × Scene) :=
  match pdSetattr fuel [] "d" (PDVal.dict d) inst attrN s with
  | Option.none => Option.none
  | some (i1, s1) =>
    match pdSetattr fuel i1 "inst" (PDVal.node inst) inst attrN s1 with
    | Option.none => Option.none
    | some (i2, s2) => pdSetattr fuel i2 "attr" (PDVal.aname attrN) inst attrN s2

/-- `JsonAccessDirect.__get__`: read the stored string, overlay it on a
copy of the defaults, and construct the `ProxyDict`; `none` models a
raised exception. -/
def jsonAccessDirectGet (fuel : Nat) (a : String) (defaults : List (String × Json))
    (obj : String) (s : Scene) : Option (List (String × PDVal)) × Scene :=
  let res := (getStringAttr obj a s).1
  let dRes : Option (List (String × Json)) :=
    if res.falsy then some defaults
    else
      match res with
      | PyVal.str str =>
        match loads str with
        | some (Json.obj m) => some (dictUpdate defaults m)
        | _ => Option.none
      | _ => Option.none
  match dRes with
  | Option.none => (Option.none, s)
  | some d2 =>
    match proxyDictInit fuel d2 obj a s with
    | Option.none => (Option.none, s)
    | some (inst, s2) => (some inst, s2)

/-- `JsonAccessDirect.__set__`: serialize and store, exactly like
`JsonAccess.__set__`. -/
def jsonAccessDirectSet (obj a : String) (value : Json) (s : Scene) : Scene :=
  setStringAttr obj a (some (dumps value)) s

mutual

/-- A syntactically well-formed serializable value: every object that
occurs in it (at any depth) is a genuine mapping, i.e. has no duplicate
keys.  This is what "order-preserving mapping" presupposes. -/
def jwf : Json → Bool
  | Json.null => true
  | Json.bool _ => true
  | Json.int _ => true
  | Json.str _ => true
  | Json.arr xs => jwfArr xs
  | Json.obj m => jwfObj m

def jwfArr : List Json → Bool
  | [] => true
  | x :: xs => jwf x && jwfArr xs

def jwfObj : List (String × Json) → Bool
  | [] => true
  | (k, v) :: tl => tl.all (fun e => !(e.1 = k : Bool)) && jwf v && jwfObj tl

end

/-- Heads that the serializer can emit for a value. -/
def headOk (c : Char) : Bool :=
  c = 'n' || c = 't' || c = 'f' || c = '\"' || c = '[' || c = '\x7b' || c = '-' || c.isDigit

/-- The continuation after a serialized number must not begin with a
digit (inside serializer output it is `,`, `]`, `\x7d` or the end). -/
def numSafe : List Char → Bool
  | [] => true
  | c :: _ => !c.isDigit

/-- Only whitespace characters. -/
def wsOnly (l : List Char) : Bool := l.all isWsChar

theorem Scene.find_addAttr_self (s : Scene) (obj a : String) (t : AttrType) :
    Scene.find (Scene.addAttr s obj a t) (obj, a) = some (AttrState.mk t PyVal.none []) := by
  simp [Scene.find, Scene.addAttr]

theorem Scene.find_addAttr_ne (s : Scene) (obj a : String) (t : AttrType)
    (k : String × String) (h : k ≠ (obj, a)) :
    Scene.find (Scene.addAttr s obj a t) k = Scene.find s k := by
  simp [Scene.find, Scene.addAttr, eq_false (fun hc : (obj, a) = k => h hc.symm)]

theorem Scene.find_modify (s : Scene) (k k2 : String × String) (f : AttrState → AttrState) :
    Scene.find (Scene.modify s k f) k2
      = if k2 = k then (Scene.find s k).map f else Scene.find s k2 := by
  induction s with
  | nil => by_cases h : k2 = k <;> simp [Scene.find, Scene.modify, h]
  | cons e s ih =>
    simp only [Scene.modify] at ih
    by_cases he : e.1 = k
    · by_cases h : k2 = k
      · subst h
        simp [Scene.modify, Scene.find, he, ih]
      · have h2 : ¬(k = k2) := fun hc => h hc.symm
        simp [Scene.modify, Scene.find, he, h, h2, ih]
    · by_cases h2 : e.1 = k2
      · by_cases h : k2 = k
        · exact absurd (h2.trans h) he
        · simp [Scene.modify, Scene.find, he, h2, h]
      · simp [Scene.modify, Scene.find, he, h2, ih]

theorem Scene.hasAttr_modify (s : Scene) (k : String × String) (f : AttrState → AttrState)
    (obj a : String) :
    Scene.hasAttr (Scene.modify s k f) obj a = Scene.hasAttr s obj a := by
  by_cases h : (obj, a) = k
  · subst h; simp [Scene.hasAttr, Scene.find_modify]
  · simp [Scene.hasAttr, Scene.find_modify, h]

theorem Scene.modify_modify (s : Scene) (k : String × String) (f g : AttrState → AttrState) :
    Scene.modify (Scene.modify s k f) k g = Scene.modify s k (fun st => g (f st)) := by
  unfold Scene.modify
  rw [List.map_map]
  have hfun : ((fun e => if e.1 = k then (e.1, g e.2) else e)
        ∘ (fun e : (String × String) × AttrState => if e.1 = k then (e.1, f e.2) else e))
      = fun e : (String × String) × AttrState => if e.1 = k then (e.1, g (f e.2)) else e := by
    funext e
    by_cases he : e.1 = k <;> simp [Function.comp, he]
  rw [hfun]

theorem Scene.hasAttr_addAttr_self (s : Scene) (obj a : String) (t : AttrType) :
    Scene.hasAttr (Scene.addAttr s obj a t) obj a = true := by
  simp [Scene.hasAttr, Scene.find_addAttr_self]

theorem Scene.hasAttr_setVal (s : Scene) (obj a obj2 a2 : String) (v : PyVal) :
    Scene.hasAttr (Scene.setVal s obj a v) obj2 a2 = Scene.hasAttr s obj2 a2 :=
  Scene.hasAttr_modify ..

theorem Scene.hasAttr_connect (s : Scene) (obj a obj2 a2 : String) (src : String) :
    Scene.hasAttr (Scene.connect s obj a src) obj2 a2 = Scene.hasAttr s obj2 a2 :=
  Scene.hasAttr_modify ..

theorem Scene.hasAttr_disconnect (s : Scene) (obj a obj2 a2 : String) :
    Scene.hasAttr (Scene.disconnect s obj a) obj2 a2 = Scene.hasAttr s obj2 a2 :=
  Scene.hasAttr_modify ..

theorem Scene.find_setVal_self (s : Scene) (obj a : String) (v : PyVal) :
    Scene.find (Scene.setVal s obj a v) (obj, a)
      = (Scene.find s (obj, a)).map (fun st => AttrState.mk st.ty v st.conns) := by
  simp [Scene.setVal, Scene.find_modify]

theorem Scene.find_connect_self (s : Scene) (obj a src : String) :
    Scene.find (Scene.connect s obj a src) (obj, a)
      = (Scene.find s (obj, a)).map (fun st => AttrState.mk st.ty st.val [src]) := by
  simp [Scene.connect, Scene.find_modify]

theorem Scene.find_disconnect_self (s : Scene) (obj a : String) :
    Scene.find (Scene.disconnect s obj a) (obj, a)
      = (Scene.find s (obj, a)).map (fun st => AttrState.mk st.ty st.val []) := by
  simp [Scene.disconnect, Scene.find_modify]

theorem Scene.hasAttr_ensure (s : Scene) (obj a : String) (t : AttrType) :
    Scene.hasAttr (if Scene.hasAttr s obj a = false then Scene.addAttr s obj a t else s) obj a
      = true := by
  cases h : Scene.hasAttr s obj a <;> simp [h, Scene.hasAttr_addAttr_self]

theorem Scene.attrVal_setVal_of_has (s : Scene) (obj a : String) (v : PyVal)
    (h : Scene.hasAttr s obj a = true) :
    Scene.attrVal (Scene.setVal s obj a v) obj a = v := by
  obtain ⟨e, he⟩ := Option.isSome_iff_exists.mp h
  simp [Scene.attrVal, Scene.find_setVal_self, he]

theorem Scene.listConnections_setVal (s : Scene) (obj a : String) (v : PyVal) :
    Scene.listConnections (Scene.setVal s obj a v) obj a = Scene.listConnections s obj a := by
  cases hf : Scene.find s (obj, a) <;>
    simp [Scene.listConnections, Scene.find_setVal_self, hf]

theorem Scene.listConnections_disconnect (s : Scene) (obj a : String) :
    Scene.listConnections (Scene.disconnect s obj a) obj a = [] := by
  cases hf : Scene.find s (obj, a) <;>
    simp [Scene.listConnections, Scene.find_disconnect_self, hf]

theorem Scene.listConnections_connect_of_has (s : Scene) (obj a src : String)
    (h : Scene.hasAttr s obj a = true) :
    Scene.listConnections (Scene.connect s obj a src) obj a = [src] := by
  obtain ⟨e, he⟩ := Option.isSome_iff_exists.mp h
  simp [Scene.listConnections, Scene.find_connect_self, he]

theorem Scene.attrVal_connect (s : Scene) (obj a src : String) :
    Scene.attrVal (Scene.connect s obj a src) obj a = Scene.attrVal s obj a := by
  cases hf : Scene.find s (obj, a) <;>
    simp [Scene.attrVal, Scene.find_connect_self, hf]

theorem Scene.attrVal_disconnect (s : Scene) (obj a : String) :
    Scene.attrVal (Scene.disconnect s obj a) obj a = Scene.attrVal s obj a := by
  cases hf : Scene.find s (obj, a) <;>
    simp [Scene.attrVal, Scene.find_disconnect_self, hf]

theorem getStringAttr_setStringAttr (s : Scene) (obj a : String) (x : String) :
    (getStringAttr obj a (setStringAttr obj a (some x) s)).1 = PyVal.str x := by
  have h1 := Scene.hasAttr_ensure s obj a AttrType.string
  simp [setStringAttr, getStringAttr, Scene.hasAttr_setVal, h1,
    Scene.attrVal_setVal_of_has _ _ _ _ h1]

theorem getIntAttr_setIntAttr (s : Scene) (obj a : String) (x : Int) :
    (getIntAttr obj a (setIntAttr obj a (some x) s)).1 = PyVal.int x := by
  have h1 := Scene.hasAttr_ensure s obj a AttrType.long
  simp [setIntAttr, getIntAttr, Scene.hasAttr_setVal, h1,
    Scene.attrVal_setVal_of_has _ _ _ _ h1]

theorem getFloatAttr_setFloatAttr (s : Scene) (obj a : String) (x : Rat) :
    (getFloatAttr obj a (setFloatAttr obj a (some x) s)).1 = PyVal.float x := by
  have h1 := Scene.hasAttr_ensure s obj a AttrType.double
  simp [setFloatAttr, getFloatAttr, Scene.hasAttr_setVal, h1,
    Scene.attrVal_setVal_of_has _ _ _ _ h1]

/-- C1: for every node and every accessor whose backing attribute does not
exist on that node, `get` returns the accessor's fixed default — the empty
string for `StringAccess`, `-666` for `IntAccess`, `-666.666` for
`FloatAccess`, the empty mapping for `JsonAccess`, and `None` for
`SingleConnectionAccess` — and no accessor raises on the missing
attribute (each getter returns a value rather than an exception). -/
theorem claim_C1 (s : Scene) (obj a : String) (h : Scene.hasAttr s obj a = false) :
    (getStringAttr obj a s).1 = PyVal.str "" ∧
    (getIntAttr obj a s).1 = PyVal.int (-666) ∧
    (getFloatAttr obj a s).1 = PyVal.float (-666.666) ∧
    (jsonAccessGet obj a s).1 = some (Json.obj []) ∧
    (getSingleConnection obj a s).1 = PyVal.none := by
  refine ⟨by simp [getStringAttr, h], by simp [getIntAttr, h], by simp [getFloatAttr, h],
    ?_, by simp [getSingleConnection, h]⟩
  simp [jsonAccessGet, getStringAttr, h, PyVal.falsy]

/-- Witness for C1 at the empty scene. -/
theorem claim_C1_witness :
    Scene.hasAttr ([] : Scene) "node1" "attrA" = false ∧
    ((getStringAttr "node1" "attrA" ([] : Scene)).1 = PyVal.str "" ∧
     (getIntAttr "node1" "attrA" ([] : Scene)).1 = PyVal.int (-666) ∧
     (getFloatAttr "node1" "attrA" ([] : Scene)).1 = PyVal.float (-666.666) ∧
     (jsonAccessGet "node1" "attrA" ([] : Scene)).1 = some (Json.obj []) ∧
     (getSingleConnection "node1" "attrA" ([] : Scene)).1 = PyVal.none) :=
  ⟨rfl, claim_C1 ([] : Scene) "node1" "attrA" rfl⟩

/-- C2: for every scalar accessor, node and value `v`: `set` creates the
backing attribute with its fixed storage type (`dt='string'`, `dt='long'`,
`dt='double'`) when absent and then writes `v`; when `v` is `None`
nothing is written, so `set(node, None)` only ensures the attribute
exists; and for every non-`None` `v` a subsequent `get` returns `v`. -/
theorem claim_C2 (s : Scene) (obj a : String) :
    ((∀ v : Option String, Scene.hasAttr s obj a = false →
        Scene.find (setStringAttr obj a v s) (obj, a)
          = some (AttrState.mk AttrType.string (v.elim PyVal.none PyVal.str) [])) ∧
     (setStringAttr obj a Option.none s
        = if Scene.hasAttr s obj a = true then s else Scene.addAttr s obj a AttrType.string) ∧
     (∀ x : String, (getStringAttr obj a (setStringAttr obj a (some x) s)).1 = PyVal.str x)) ∧
    ((∀ v : Option Int, Scene.hasAttr s obj a = false →
        Scene.find (setIntAttr obj a v s) (obj, a)
          = some (AttrState.mk AttrType.long (v.elim PyVal.none PyVal.int) [])) ∧
     (setIntAttr obj a Option.none s
        = if Scene.hasAttr s obj a = true then s else Scene.addAttr s obj a AttrType.long) ∧
     (∀ x : Int, (getIntAttr obj a (setIntAttr obj a (some x) s)).1 = PyVal.int x)) ∧
    ((∀ v : Option Rat, Scene.hasAttr s obj a = false →
        Scene.find (setFloatAttr obj a v s) (obj, a)
          = some (AttrState.mk AttrType.double (v.elim PyVal.none PyVal.float) [])) ∧
     (setFloatAttr obj a Option.none s
        = if Scene.hasAttr s obj a = true then s else Scene.addAttr s obj a AttrType.double) ∧
     (∀ x : Rat, (getFloatAttr obj a (setFloatAttr obj a (some x) s)).1 = PyVal.float x)) := by
  refine ⟨⟨?_, ?_, getStringAttr_setStringAttr s obj a⟩,
    ⟨?_, ?_, getIntAttr_setIntAttr s obj a⟩, ⟨?_, ?_, getFloatAttr_setFloatAttr s obj a⟩⟩
  · intro v h
    cases v <;> simp [setStringAttr, h, Scene.find_setVal_self, Scene.find_addAttr_self]
  · cases h : Scene.hasAttr s obj a <;> simp [setStringAttr, h]
  · intro v h
    cases v <;> simp [setIntAttr, h, Scene.find_setVal_self, Scene.find_addAttr_self]
  · cases h : Scene.hasAttr s obj a <;> simp [setIntAttr, h]
  · intro v h
    cases v <;> simp [setFloatAttr, h, Scene.find_setVal_self, Scene.find_addAttr_self]
  · cases h : Scene.hasAttr s obj a <;> simp [setFloatAttr, h]

/-- Witness for C2: creation, `None` write skip and round-trip at
concrete inputs on the empty scene. -/
theorem claim_C2_witness :
    Scene.hasAttr ([] : Scene) "n" "a" = false ∧
    Scene.find (setStringAttr "n" "a" (some "v") ([] : Scene)) ("n", "a")
      = some (AttrState.mk AttrType.string (PyVal.str "v") []) ∧
    Scene.find (setIntAttr "n" "a" Option.none ([] : Scene)) ("n", "a")
      = some (AttrState.mk AttrType.long PyVal.none []) ∧
    (getIntAttr "n" "a" (setIntAttr "n" "a" (some 7) ([] : Scene))).1 = PyVal.int 7 ∧
    (getFloatAttr "n" "a" (setFloatAttr "n" "a" (some (5 / 2 : Rat)) ([] : Scene))).1
      = PyVal.float (5 / 2 : Rat) :=
  ⟨rfl,
   (claim_C2 ([] : Scene) "n" "a").1.1 (some "v") rfl,
   (claim_C2 ([] : Scene) "n" "a").2.1.1 Option.none rfl,
   (claim_C2 ([] : Scene) "n" "a").2.1.2.2 7,
   (claim_C2 ([] : Scene) "n" "a").2.2.2.2 (5 / 2 : Rat)⟩

theorem Scene.listConnections_addAttr_self (s : Scene) (obj a : String) (t : AttrType) :
    Scene.listConnections (Scene.addAttr s obj a t) obj a = [] := by
  simp [Scene.listConnections, Scene.find_addAttr_self]

theorem Scene.attrVal_addAttr_self (s : Scene) (obj a : String) (t : AttrType) :
    Scene.attrVal (Scene.addAttr s obj a t) obj a = PyVal.none := by
  simp [Scene.attrVal, Scene.find_addAttr_self]

theorem hasAttr_messageAttr (s : Scene) (obj a : String) :
    Scene.hasAttr (messageAttr obj a s) obj a = true := by
  cases hh : Scene.hasAttr s obj a <;> simp [messageAttr, hh, Scene.hasAttr_addAttr_self]

theorem getSSC_set_after_disconnect (s : Scene) (obj a : String) (v : String)
    (h : Scene.hasAttr s obj a = true) :
    (getSingleStringConnection obj a
        (Scene.setVal (Scene.disconnect s obj a) obj a (PyVal.str v))).1 = PyVal.str v := by
  have h1 : Scene.hasAttr (Scene.disconnect s obj a) obj a = true := by
    rw [Scene.hasAttr_disconnect]; exact h
  have h2 : Scene.hasAttr (Scene.setVal (Scene.disconnect s obj a) obj a (PyVal.str v)) obj a
      = true := by rw [Scene.hasAttr_setVal]; exact h1
  have h3 : Scene.listConnections (Scene.setVal (Scene.disconnect s obj a) obj a (PyVal.str v))
      obj a = [] := by rw [Scene.listConnections_setVal, Scene.listConnections_disconnect]
  have h4 := Scene.attrVal_setVal_of_has (Scene.disconnect s obj a) obj a (PyVal.str v) h1
  simp [getSingleStringConnection, h2, h3, h4]

/-- C6: for the single-connection accessor, connecting node `B` to
attribute `X` of node `A` makes `get` return `B`; disconnecting via
`set(A, X, None)` makes `get` return `None`; and in general `get` returns
the first entry of the attribute's connection list when the attribute
exists and is connected, and `None` otherwise. -/
theorem claim_C6 (s : Scene) (A X B : String) :
    (getSingleConnection A X (setSingleConnection A X (SSVal.node B) s)).1 = PyVal.node B ∧
    (getSingleConnection A X (setSingleConnection A X SSVal.pynone s)).1 = PyVal.none ∧
    (getSingleConnection A X s).1
      = (if Scene.hasAttr s A X = true then
          match Scene.listConnections s A X with
          | c :: _ => PyVal.node c
          | [] => PyVal.none
         else PyVal.none) := by
  refine ⟨?_, ?_, ?_⟩
  · have h1 := hasAttr_messageAttr s A X
    have h2 : Scene.hasAttr (Scene.connect (messageAttr A X s) A X B) A X = true := by
      rw [Scene.hasAttr_connect]; exact h1
    have h3 := Scene.listConnections_connect_of_has (messageAttr A X s) A X B h1
    simp [setSingleConnection, SSVal.truthy, getSingleConnection, h2, h3]
  · cases h : Scene.hasAttr s A X
    · simp [setSingleConnection, SSVal.truthy, getSingleConnection, h]
    · have h2 : Scene.hasAttr (Scene.disconnect s A X) A X = true := by
        rw [Scene.hasAttr_disconnect]; exact h
      simp [setSingleConnection, SSVal.truthy, getSingleConnection, h, h2,
        Scene.listConnections_disconnect]
  · cases h : Scene.hasAttr s A X
    · simp [getSingleConnection, h]
    · cases hl : Scene.listConnections s A X <;> simp [getSingleConnection, h, hl]

/-- C7: for the connection-or-string accessor, on a node whose attribute
currently has a connection, setting a string value disconnects first, so
a subsequent `get` returns the stored string rather than the previously
connected node. -/
theorem claim_C7 (s : Scene) (obj a : String) (h : Scene.hasAttr s obj a = true)
    (hc : Scene.listConnections s obj a ≠ []) (v : String) :
    (getSingleStringConnection obj a (setSingleStringConnection obj a (SSVal.str v) s)).1
      = PyVal.str v := by
  by_cases hv : v = ""
  · subst hv
    have htr : (SSVal.str "").truthy = false := rfl
    simp [setSingleStringConnection, htr, h, getSSC_set_after_disconnect s obj a "" h]
  · have htr : (SSVal.str v).truthy = true := by simp [SSVal.truthy, hv]
    have hie : (Scene.listConnections s obj a).isEmpty = false := by
      cases hl : Scene.listConnections s obj a with
      | nil => exact absurd hl hc
      | cons c cs => rfl
    have hguard : (Scene.hasAttr s obj a && !(Scene.listConnections s obj a).isEmpty) = true := by
      rw [h, hie]; rfl
    have hd : Scene.hasAttr (Scene.disconnect s obj a) obj a = true := by
      rw [Scene.hasAttr_disconnect]; exact h
    simp [setSingleStringConnection, htr, hguard, setStringAttr, hd,
      getSSC_set_after_disconnect s obj a v h]

/-- Witness for C7: a connected string attribute, then a string write. -/
theorem claim_C7_witness :
    Scene.hasAttr [(("A", "m"), AttrState.mk AttrType.string (PyVal.str "old") ["C"])]
        "A" "m" = true ∧
    Scene.listConnections [(("A", "m"), AttrState.mk AttrType.string (PyVal.str "old") ["C"])]
        "A" "m" ≠ [] ∧
    (getSingleStringConnection "A" "m"
        (setSingleStringConnection "A" "m" (SSVal.str "v")
          [(("A", "m"), AttrState.mk AttrType.string (PyVal.str "old") ["C"])])).1
      = PyVal.str "v" :=
  ⟨rfl, by decide,
   claim_C7 [(("A", "m"), AttrState.mk AttrType.string (PyVal.str "old") ["C"])]
     "A" "m" rfl (by decide) "v"⟩

/-- C8: for both connection-backed accessors, on a node whose backing
attribute exists, setting `None` or an empty value disconnects the
connection but never deletes the attribute: it still exists afterwards. -/
theorem claim_C8 (s : Scene) (obj a : String) (h : Scene.hasAttr s obj a = true)
    (v : SSVal) (hv : v.truthy = false) :
    (Scene.hasAttr (setSingleConnection obj a v s) obj a = true ∧
     Scene.listConnections (setSingleConnection obj a v s) obj a = []) ∧
    (Scene.hasAttr (setSingleStringConnection obj a v s) obj a = true ∧
     Scene.listConnections (setSingleStringConnection obj a v s) obj a = []) := by
  constructor
  · constructor
    · simp [setSingleConnection, hv, h, Scene.hasAttr_disconnect]
    · simp [setSingleConnection, hv, h, Scene.listConnections_disconnect]
  · constructor
    · simp [setSingleStringConnection, hv, h, Scene.hasAttr_setVal, Scene.hasAttr_disconnect]
    · simp [setSingleStringConnection, hv, h, Scene.listConnections_setVal,
        Scene.listConnections_disconnect]

/-- Witness for C8: disconnecting an existing connected attribute with
`None`. -/
theorem claim_C8_witness :
    Scene.hasAttr [(("A", "x"), AttrState.mk AttrType.message PyVal.none ["B"])] "A" "x"
      = true ∧
    SSVal.pynone.truthy = false ∧
    ((Scene.hasAttr (setSingleConnection "A" "x" SSVal.pynone
        [(("A", "x"), AttrState.mk AttrType.message PyVal.none ["B"])]) "A" "x" = true ∧
      Scene.listConnections (setSingleConnection "A" "x" SSVal.pynone
        [(("A", "x"), AttrState.mk AttrType.message PyVal.none ["B"])]) "A" "x" = []) ∧
     (Scene.hasAttr (setSingleStringConnection "A" "x" SSVal.pynone
        [(("A", "x"), AttrState.mk AttrType.message PyVal.none ["B"])]) "A" "x" = true ∧
      Scene.listConnections (setSingleStringConnection "A" "x" SSVal.pynone
        [(("A", "x"), AttrState.mk AttrType.message PyVal.none ["B"])]) "A" "x" = [])) :=
  ⟨rfl, rfl,
   claim_C8 [(("A", "x"), AttrState.mk AttrType.message PyVal.none ["B"])] "A" "x" rfl
     SSVal.pynone rfl⟩

/-- C5 counterexample: on an attribute holding the string "x",
`_setSingleStringConnection` with a Node connects but does NOT clear the
stored string (the code passes `None` to `_setStringAttr`, which skips
the write), so the stored value afterwards is still "x", neither the
empty string nor unset. -/
theorem claim_C5_counterexample :
    Scene.attrVal
        (setSingleStringConnection "A" "m" (SSVal.node "B")
          [(("A", "m"), AttrState.mk AttrType.string (PyVal.str "x") [])])
        "A" "m" = PyVal.str "x" ∧
    PyVal.str "x" ≠ PyVal.str "" ∧ PyVal.str "x" ≠ PyVal.none := by
  refine ⟨by decide, by decide, by decide⟩

/-- C5 (amended): setting a string first disconnects any existing
connection and then writes the string; setting a Node ensures the backing
string attribute exists and then connects that node's message output —
leaving any previously stored string value untouched (the attribute's
value is unchanged when it existed, unset when freshly created). -/
theorem claim_C5 (s : Scene) (obj a : String) :
    (∀ v : String, v ≠ "" →
       Scene.listConnections (setSingleStringConnection obj a (SSVal.str v) s) obj a = [] ∧
       Scene.attrVal (setSingleStringConnection obj a (SSVal.str v) s) obj a = PyVal.str v) ∧
    (∀ n : String,
       Scene.hasAttr (setSingleStringConnection obj a (SSVal.node n) s) obj a = true ∧
       Scene.listConnections (setSingleStringConnection obj a (SSVal.node n) s) obj a = [n] ∧
       Scene.attrVal (setSingleStringConnection obj a (SSVal.node n) s) obj a
         = (if Scene.hasAttr s obj a = true then Scene.attrVal s obj a else PyVal.none)) := by
  constructor
  · intro v hv
    have htr : (SSVal.str v).truthy = true := by simp [SSVal.truthy, hv]
    cases hg : (Scene.hasAttr s obj a && !(Scene.listConnections s obj a).isEmpty) with
    | true =>
      have hd : Scene.hasAttr (Scene.disconnect s obj a) obj a = true := by
        rw [Scene.hasAttr_disconnect]
        exact (Bool.and_eq_true _ _).mp hg |>.1
      constructor
      · simp [setSingleStringConnection, htr, hg, setStringAttr, hd,
          Scene.listConnections_setVal, Scene.listConnections_disconnect]
      · simp [setSingleStringConnection, htr, hg, setStringAttr, hd,
          Scene.attrVal_setVal_of_has _ _ _ _ hd]
    | false =>
      cases h : Scene.hasAttr s obj a with
      | true =>
        have hce : (Scene.listConnections s obj a).isEmpty = true := by
          rcases Bool.and_eq_false_iff.mp hg with hc | hc
          · exact absurd h (by simp [hc])
          · simpa using hc
        have hc0 : Scene.listConnections s obj a = [] := by
          cases hl : Scene.listConnections s obj a with
          | nil => rfl
          | cons c cs => rw [hl] at hce; exact absurd hce (by simp)
        constructor
        · simp [setSingleStringConnection, htr, hg, setStringAttr, h,
            Scene.listConnections_setVal, hc0]
        · simp [setSingleStringConnection, htr, hg, setStringAttr, h, hc0,
            Scene.attrVal_setVal_of_has _ _ _ _ h]
      | false =>
        have ha : Scene.hasAttr (Scene.addAttr s obj a AttrType.string) obj a = true :=
          Scene.hasAttr_addAttr_self s obj a AttrType.string
        constructor
        · simp [setSingleStringConnection, htr, hg, setStringAttr, h,
            Scene.listConnections_setVal, Scene.listConnections_addAttr_self]
        · simp [setSingleStringConnection, htr, hg, setStringAttr, h,
            Scene.attrVal_setVal_of_has _ _ _ _ ha]
  · intro n
    have he : Scene.hasAttr (setStringAttr obj a Option.none s) obj a = true := by
      cases h : Scene.hasAttr s obj a <;>
        simp [setStringAttr, h, Scene.hasAttr_addAttr_self]
    refine ⟨?_, ?_, ?_⟩
    · simp [setSingleStringConnection, SSVal.truthy, Scene.hasAttr_connect, he]
    · simp [setSingleStringConnection, SSVal.truthy,
        Scene.listConnections_connect_of_has _ _ _ _ he]
    · cases h : Scene.hasAttr s obj a with
      | true =>
        simp [setSingleStringConnection, SSVal.truthy, Scene.attrVal_connect,
          setStringAttr, h]
      | false =>
        simp [setSingleStringConnection, SSVal.truthy, Scene.attrVal_connect,
          setStringAttr, h, Scene.attrVal_addAttr_self]

/-- Witness for C5 (amended) at a scene holding a connected attribute
with a stored string. -/
theorem claim_C5_witness :
    ("v" : String) ≠ "" ∧
    (Scene.listConnections
        (setSingleStringConnection "A" "m" (SSVal.str "v")
          [(("A", "m"), AttrState.mk AttrType.string (PyVal.str "old") ["C"])]) "A" "m" = [] ∧
     Scene.attrVal
        (setSingleStringConnection "A" "m" (SSVal.str "v")
          [(("A", "m"), AttrState.mk AttrType.string (PyVal.str "old") ["C"])]) "A" "m"
       = PyVal.str "v") :=
  ⟨by decide,
   (claim_C5 [(("A", "m"), AttrState.mk AttrType.string (PyVal.str "old") ["C"])] "A" "m").1
     "v" (by decide)⟩

theorem pdGetattr_nil : ∀ (fuel : Nat) (x : String), pdGetattr fuel [] x = Option.none
  | 0, _ => rfl
  | fuel + 1, x => by simp [pdGetattr, pdLookup, pdGetattr_nil fuel "d"]

theorem pdSetattr_nil (fuel : Nat) (a : String) (v : PDVal) (obj attrN : String) (s : Scene) :
    pdSetattr fuel [] a v obj attrN s = Option.none := by
  simp [pdSetattr, pdGetattr_nil]

theorem proxyDictInit_eq_none (fuel : Nat) (d : List (String × Json)) (inst attrN : String)
    (s : Scene) : proxyDictInit fuel d inst attrN s = Option.none := by
  simp [proxyDictInit, pdSetattr_nil]

/-- C4: the live-proxy accessor `JsonAccessDirect` never yields the claimed
merged mapping: constructing the `ProxyDict` in `__get__` always diverges
(`__setattr__` intercepts `self.d = d` and reads `self.d` back through
`__getattr__` before it exists), so `get` raises for every scene, every
defaults mapping and every recursion depth, instead of returning the
overlay of defaults and stored data. -/
theorem claim_C4 (fuel : Nat) (s : Scene) (defaults : List (String × Json)) (obj a : String) :
    (jsonAccessDirectGet fuel a defaults obj s).1 = Option.none := by
  unfold jsonAccessDirectGet
  simp only [proxyDictInit_eq_none]
  split <;> rfl

/-- C10: every getter is read-only — on any scene, calling any accessor's
`get` (including on a missing attribute) returns the scene state
unchanged: no attribute is created, no connection made, nothing written. -/
theorem claim_C10 (s : Scene) (obj a : String) :
    (getStringAttr obj a s).2 = s ∧
    (getIntAttr obj a s).2 = s ∧
    (getFloatAttr obj a s).2 = s ∧
    (getSingleConnection obj a s).2 = s ∧
    (getSingleStringConnection obj a s).2 = s ∧
    (jsonAccessGet obj a s).2 = s ∧
    (∀ (fuel : Nat) (defaults : List (String × Json)),
      (jsonAccessDirectGet fuel a defaults obj s).2 = s) := by
  refine ⟨?_, ?_, ?_, ?_, ?_, ?_, ?_⟩
  · cases h : Scene.hasAttr s obj a <;> simp [getStringAttr, h]
  · cases h : Scene.hasAttr s obj a <;> simp [getIntAttr, h]
  · cases h : Scene.hasAttr s obj a <;> simp [getFloatAttr, h]
  · cases h : Scene.hasAttr s obj a
    · simp [getSingleConnection, h]
    · cases hl : Scene.listConnections s obj a <;> simp [getSingleConnection, h, hl]
  · cases h : Scene.hasAttr s obj a
    · simp [getSingleStringConnection, h]
    · cases hl : Scene.listConnections s obj a <;> simp [getSingleStringConnection, h, hl]
  · unfold jsonAccessGet
    dsimp only
    split
    · rfl
    · split <;> rfl
  · intro fuel defaults
    unfold jsonAccessDirectGet
    simp only [proxyDictInit_eq_none]
    split <;> rfl

theorem Scene.setVal_setVal (s : Scene) (obj a : String) (v w : PyVal) :
    Scene.setVal (Scene.setVal s obj a v) obj a w = Scene.setVal s obj a w := by
  unfold Scene.setVal
  rw [Scene.modify_modify]

theorem Scene.connect_connect (s : Scene) (obj a src src2 : String) :
    Scene.connect (Scene.connect s obj a src) obj a src2 = Scene.connect s obj a src2 := by
  unfold Scene.connect
  rw [Scene.modify_modify]

theorem Scene.disconnect_disconnect (s : Scene) (obj a : String) :
    Scene.disconnect (Scene.disconnect s obj a) obj a = Scene.disconnect s obj a := by
  unfold Scene.disconnect
  rw [Scene.modify_modify]

theorem Scene.setVal_disconnect_pack (s : Scene) (obj a : String) (x : PyVal) :
    Scene.setVal (Scene.disconnect (Scene.setVal (Scene.disconnect s obj a) obj a x) obj a)
        obj a x
      = Scene.setVal (Scene.disconnect s obj a) obj a x := by
  unfold Scene.setVal Scene.disconnect
  simp only [Scene.modify_modify]

theorem messageAttr_of_has (s : Scene) (obj a : String) (h : Scene.hasAttr s obj a = true) :
    messageAttr obj a s = s := by
  simp [messageAttr, h]

theorem setStringAttr_twice (s : Scene) (obj a : String) (v : Option String) :
    setStringAttr obj a v (setStringAttr obj a v s) = setStringAttr obj a v s := by
  cases v with
  | none =>
    cases h : Scene.hasAttr s obj a with
    | true => simp [setStringAttr, h]
    | false => simp [setStringAttr, h, Scene.hasAttr_addAttr_self]
  | some x =>
    have hE : Scene.hasAttr (Scene.setVal
        (if Scene.hasAttr s obj a = false then Scene.addAttr s obj a AttrType.string else s)
        obj a (PyVal.str x)) obj a = true := by
      rw [Scene.hasAttr_setVal]; exact Scene.hasAttr_ensure s obj a _
    simp [setStringAttr, hE, Scene.setVal_setVal]

theorem setIntAttr_twice (s : Scene) (obj a : String) (v : Option Int) :
    setIntAttr obj a v (setIntAttr obj a v s) = setIntAttr obj a v s := by
  cases v with
  | none =>
    cases h : Scene.hasAttr s obj a with
    | true => simp [setIntAttr, h]
    | false => simp [setIntAttr, h, Scene.hasAttr_addAttr_self]
  | some x =>
    have hE : Scene.hasAttr (Scene.setVal
        (if Scene.hasAttr s obj a = false then Scene.addAttr s obj a AttrType.long else s)
        obj a (PyVal.int x)) obj a = true := by
      rw [Scene.hasAttr_setVal]; exact Scene.hasAttr_ensure s obj a _
    simp [setIntAttr, hE, Scene.setVal_setVal]

theorem setFloatAttr_twice (s : Scene) (obj a : String) (v : Option Rat) :
    setFloatAttr obj a v (setFloatAttr obj a v s) = setFloatAttr obj a v s := by
  cases v with
  | none =>
    cases h : Scene.hasAttr s obj a with
    | true => simp [setFloatAttr, h]
    | false => simp [setFloatAttr, h, Scene.hasAttr_addAttr_self]
  | some x =>
    have hE : Scene.hasAttr (Scene.setVal
        (if Scene.hasAttr s obj a = false then Scene.addAttr s obj a AttrType.double else s)
        obj a (PyVal.float x)) obj a = true := by
      rw [Scene.hasAttr_setVal]; exact Scene.hasAttr_ensure s obj a _
    simp [setFloatAttr, hE, Scene.setVal_setVal]

theorem setSingleConnection_twice (s : Scene) (obj a : String) (v : SSVal) :
    setSingleConnection obj a v (setSingleConnection obj a v s)
      = setSingleConnection obj a v s := by
  cases v with
  | pynone =>
    cases h : Scene.hasAttr s obj a with
    | false => simp [setSingleConnection, SSVal.truthy, h]
    | true =>
      have h2 : Scene.hasAttr (Scene.disconnect s obj a) obj a = true := by
        rw [Scene.hasAttr_disconnect]; exact h
      simp [setSingleConnection, SSVal.truthy, h, h2, Scene.disconnect_disconnect]
  | node n =>
    have h1 : Scene.hasAttr (Scene.connect (messageAttr obj a s) obj a n) obj a = true := by
      rw [Scene.hasAttr_connect]; exact hasAttr_messageAttr s obj a
    simp [setSingleConnection, SSVal.truthy,
      messageAttr_of_has (Scene.connect (messageAttr obj a s) obj a n) obj a h1,
      Scene.connect_connect]
  | str name =>
    by_cases hn : name = ""
    · subst hn
      have htr : (SSVal.str "").truthy = false := rfl
      cases h : Scene.hasAttr s obj a with
      | false => simp [setSingleConnection, htr, h]
      | true =>
        have h2 : Scene.hasAttr (Scene.disconnect s obj a) obj a = true := by
          rw [Scene.hasAttr_disconnect]; exact h
        simp [setSingleConnection, htr, h, h2, Scene.disconnect_disconnect]
    · have htr : (SSVal.str name).truthy = true := by simp [SSVal.truthy, hn]
      have h1 : Scene.hasAttr (Scene.connect (messageAttr obj a s) obj a name) obj a
          = true := by
        rw [Scene.hasAttr_connect]; exact hasAttr_messageAttr s obj a
      simp [setSingleConnection, htr,
        messageAttr_of_has (Scene.connect (messageAttr obj a s) obj a name) obj a h1,
        Scene.connect_connect]

theorem setSingleStringConnection_twice (s : Scene) (obj a : String) (v : SSVal) :
    setSingleStringConnection obj a v (setSingleStringConnection obj a v s)
      = setSingleStringConnection obj a v s := by
  cases v with
  | pynone =>
    cases h : Scene.hasAttr s obj a with
    | false => simp [setSingleStringConnection, SSVal.truthy, h]
    | true =>
      have h2 : Scene.hasAttr
          (Scene.setVal (Scene.disconnect s obj a) obj a (PyVal.str "")) obj a = true := by
        rw [Scene.hasAttr_setVal, Scene.hasAttr_disconnect]; exact h
      simp [setSingleStringConnection, SSVal.truthy, h, h2, Scene.setVal_disconnect_pack]
  | node n =>
    have hE : Scene.hasAttr
        (if Scene.hasAttr s obj a = false then Scene.addAttr s obj a AttrType.string else s)
        obj a = true := Scene.hasAttr_ensure s obj a _
    have hR : Scene.hasAttr
        (Scene.connect
          (if Scene.hasAttr s obj a = false then Scene.addAttr s obj a AttrType.string else s)
          obj a n) obj a = true := by
      rw [Scene.hasAttr_connect]; exact hE
    have hnone : setStringAttr obj a Option.none
        (Scene.connect (setStringAttr obj a Option.none s) obj a n)
          = Scene.connect (setStringAttr obj a Option.none s) obj a n := by
      simp [setStringAttr, hR]
    simp [setSingleStringConnection, SSVal.truthy, hnone, Scene.connect_connect]
  | str v =>
    by_cases hv : v = ""
    · subst hv
      have htr : (SSVal.str "").truthy = false := rfl
      cases h : Scene.hasAttr s obj a with
      | false => simp [setSingleStringConnection, htr, h]
      | true =>
        have h2 : Scene.hasAttr
            (Scene.setVal (Scene.disconnect s obj a) obj a (PyVal.str "")) obj a = true := by
          rw [Scene.hasAttr_setVal, Scene.hasAttr_disconnect]; exact h
        simp [setSingleStringConnection, htr, h, h2, Scene.setVal_disconnect_pack]
    · have htr : (SSVal.str v).truthy = true := by simp [SSVal.truthy, hv]
      cases hg : (Scene.hasAttr s obj a && !(Scene.listConnections s obj a).isEmpty) with
      | true =>
        have h : Scene.hasAttr s obj a = true := ((Bool.and_eq_true _ _).mp hg).1
        have hD : Scene.hasAttr (Scene.disconnect s obj a) obj a = true := by
          rw [Scene.hasAttr_disconnect]; exact h
        have hRhas : Scene.hasAttr
            (Scene.setVal (Scene.disconnect s obj a) obj a (PyVal.str v)) obj a = true := by
          rw [Scene.hasAttr_setVal]; exact hD
        have hRc : Scene.listConnections
            (Scene.setVal (Scene.disconnect s obj a) obj a (PyVal.str v)) obj a = [] := by
          rw [Scene.listConnections_setVal, Scene.listConnections_disconnect]
        simp [setSingleStringConnection, htr, hg, setStringAttr, hD, hRhas, hRc,
          Scene.setVal_setVal]
      | false =>
        cases h : Scene.hasAttr s obj a with
        | true =>
          have hc0 : Scene.listConnections s obj a = [] := by
            rcases Bool.and_eq_false_iff.mp hg with hc | hc
            · exact absurd h (by simp [hc])
            · cases hl : Scene.listConnections s obj a with
              | nil => rfl
              | cons c cs => rw [hl] at hc; simp at hc
          simp [setSingleStringConnection, htr, setStringAttr, h, hc0,
            Scene.listConnections_setVal, Scene.hasAttr_setVal, Scene.setVal_setVal]
        | false =>
          simp [setSingleStringConnection, htr, setStringAttr, h, Scene.hasAttr_setVal,
            Scene.hasAttr_addAttr_self, Scene.listConnections_setVal,
            Scene.listConnections_addAttr_self, Scene.setVal_setVal]

/-- C9: for every accessor kind, node and value, calling the setter twice
in a row with the same value yields the same observable `get` result as
calling it once (here proved from the stronger fact that the second call
leaves the scene state written by the first call unchanged). -/
theorem claim_C9 (s : Scene) (obj a : String) :
    (∀ v : Option String,
      (getStringAttr obj a (setStringAttr obj a v (setStringAttr obj a v s))).1
        = (getStringAttr obj a (setStringAttr obj a v s)).1) ∧
    (∀ v : Option Int,
      (getIntAttr obj a (setIntAttr obj a v (setIntAttr obj a v s))).1
        = (getIntAttr obj a (setIntAttr obj a v s)).1) ∧
    (∀ v : Option Rat,
      (getFloatAttr obj a (setFloatAttr obj a v (setFloatAttr obj a v s))).1
        = (getFloatAttr obj a (setFloatAttr obj a v s)).1) ∧
    (∀ j : Json,
      (jsonAccessGet obj a (jsonAccessSet obj a j (jsonAccessSet obj a j s))).1
        = (jsonAccessGet obj a (jsonAccessSet obj a j s)).1) ∧
    (∀ v : SSVal,
      (getSingleConnection obj a
          (setSingleConnection obj a v (setSingleConnection obj a v s))).1
        = (getSingleConnection obj a (setSingleConnection obj a v s)).1) ∧
    (∀ v : SSVal,
      (getSingleStringConnection obj a
          (setSingleStringConnection obj a v (setSingleStringConnection obj a v s))).1
        = (getSingleStringConnection obj a (setSingleStringConnection obj a v s)).1) ∧
    (∀ (fuel : Nat) (defaults : List (String × Json)) (j : Json),
      (jsonAccessDirectGet fuel a defaults obj
          (jsonAccessDirectSet obj a j (jsonAccessDirectSet obj a j s))).1
        = (jsonAccessDirectGet fuel a defaults obj (jsonAccessDirectSet obj a j s)).1) := by
  refine ⟨?_, ?_, ?_, ?_, ?_, ?_, ?_⟩
  · intro v; rw [setStringAttr_twice]
  · intro v; rw [setIntAttr_twice]
  · intro v; rw [setFloatAttr_twice]
  · intro j; unfold jsonAccessSet; rw [setStringAttr_twice]
  · intro v; rw [setSingleConnection_twice]
  · intro v; rw [setSingleStringConnection_twice]
  · intro fuel defaults j; unfold jsonAccessDirectSet; rw [setStringAttr_twice]

theorem digitChar_isDigit : ∀ d, d < 10 → (digitChar d).isDigit = true := by decide

theorem digitChar_toNat : ∀ d, d < 10 → (digitChar d).toNat = 48 + d := by decide

theorem digitChar_not_ws : ∀ d, d < 10 → isWsChar (digitChar d) = false := by decide

theorem digitChar_ne : ∀ d, d < 10 →
    digitChar d ≠ 'n' ∧ digitChar d ≠ 't' ∧ digitChar d ≠ 'f' ∧ digitChar d ≠ '\"' ∧
    digitChar d ≠ '[' ∧ digitChar d ≠ '\x7b' ∧ digitChar d ≠ '-' ∧ digitChar d ≠ ']' ∧
    digitChar d ≠ '\x7d' ∧ digitChar d ≠ ',' ∧ digitChar d ≠ ':' ∧ digitChar d ≠ '\\' ∧
    digitChar d ≠ ' ' := by decide

theorem hexVal_hexDigitChar : ∀ n, n < 16 → hexVal (hexDigitChar n) = some n := by decide

theorem skipWs_not_ws (c : Char) (l : List Char) (h : isWsChar c = false) :
    skipWs (c :: l) = c :: l := by
  simp [skipWs, h]

theorem skipWs_ws_front : ∀ (pre : List Char), wsOnly pre = true →
    ∀ l : List Char, skipWs (pre ++ l) = skipWs l
  | [], _, l => rfl
  | c :: pre, h, l => by
    have hc : isWsChar c = true := by
      have := (List.all_eq_true.mp h) c (by simp)
      simpa using this
    have hpre : wsOnly pre = true := by
      apply List.all_eq_true.mpr
      intro x hx
      exact (List.all_eq_true.mp h) x (by simp [hx])
    simp [skipWs, hc, skipWs_ws_front pre hpre l]

theorem parseDigits_stop (acc : Nat) (rest : List Char) (h : numSafe rest = true) :
    parseDigits acc rest = (acc, rest) := by
  cases rest with
  | nil => rfl
  | cons c cs =>
    have hc : c.isDigit = false := by simpa [numSafe] using h
    simp [parseDigits, hc]

theorem printNatAux_acc : ∀ (fuel n : Nat) (acc : List Char),
    printNatAux fuel n acc = printNatAux fuel n [] ++ acc
  | 0, _, _ => rfl
  | fuel + 1, n, acc => by
    by_cases h : n = 0
    · simp [printNatAux, h]
    · rw [printNatAux, if_neg h, printNatAux_acc fuel (n / 10) (digitChar (n % 10) :: acc)]
      rw [printNatAux, if_neg h, printNatAux_acc fuel (n / 10) [digitChar (n % 10)]]
      simp

theorem printNatAux_spec : ∀ (fuel n : Nat), n < fuel →
    (∀ c ∈ printNatAux fuel n [], ∃ d, d < 10 ∧ c = digitChar d) ∧
    (∀ acc0 : Nat,
      (printNatAux fuel n []).foldl (fun acc c => acc * 10 + (c.toNat - 48)) acc0
        = acc0 * 10 ^ (printNatAux fuel n []).length + n) ∧
    (n ≠ 0 → printNatAux fuel n [] ≠ []) := by
  intro fuel
  induction fuel with
  | zero => intro n hn; exact absurd hn (Nat.not_lt_zero n)
  | succ fuel ih =>
    intro n hn
    by_cases h : n = 0
    · subst h
      refine ⟨by simp [printNatAux], by simp [printNatAux], fun hc => absurd rfl hc⟩
    · have hlt : n / 10 < n := Nat.div_lt_self (Nat.pos_of_ne_zero h) (by omega)
      have hfuel : n / 10 < fuel := by omega
      obtain ⟨ihmem, ihfold, _⟩ := ih (n / 10) hfuel
      have hstep : printNatAux (fuel + 1) n []
          = printNatAux fuel (n / 10) [] ++ [digitChar (n % 10)] := by
        rw [printNatAux, if_neg h, printNatAux_acc fuel (n / 10) [digitChar (n % 10)]]
      refine ⟨?_, ?_, ?_⟩
      · intro c hc
        rw [hstep] at hc
        rcases List.mem_append.mp hc with hc | hc
        · exact ihmem c hc
        · exact ⟨n % 10, Nat.mod_lt n (by omega), by simpa using hc⟩
      · intro acc0
        rw [hstep, List.foldl_append, ihfold acc0]
        have htn : (digitChar (n % 10)).toNat = 48 + n % 10 :=
          digitChar_toNat (n % 10) (Nat.mod_lt n (by omega))
        simp only [List.foldl_cons, List.foldl_nil, List.length_append, List.length_cons,
          List.length_nil, htn]
        have hmod : 48 + n % 10 - 48 = n % 10 := by omega
        rw [hmod, pow_succ]
        have hdm : n / 10 * 10 + n % 10 = n := by
          have := Nat.div_add_mod n 10
          omega
        ring_nf
        omega
      · intro _
        rw [hstep]
        simp

theorem parseDigits_digits : ∀ (L : List Char) (acc : Nat) (rest : List Char),
    (∀ c ∈ L, ∃ d, d < 10 ∧ c = digitChar d) → numSafe rest = true →
    parseDigits acc (L ++ rest)
      = (L.foldl (fun a c => a * 10 + (c.toNat - 48)) acc, rest)
  | [], acc, rest, _, hrest => by simpa using parseDigits_stop acc rest hrest
  | c :: L, acc, rest, hmem, hrest => by
    obtain ⟨d, hd, hc⟩ := hmem c (by simp)
    have hdig : c.isDigit = true := hc ▸ digitChar_isDigit d hd
    rw [List.cons_append, parseDigits, if_pos hdig]
    exact parseDigits_digits L (acc * 10 + (c.toNat - 48)) rest
      (fun x hx => hmem x (by simp [hx])) hrest

theorem printNat_parse (n : Nat) (rest : List Char) (hrest : numSafe rest = true) :
    parseDigits 0 (printNat n ++ rest) = (n, rest) := by
  by_cases h : n = 0
  · subst h
    have h0 : ('0' : Char).isDigit = true := by decide
    rw [printNat, if_pos rfl, List.cons_append, List.nil_append, parseDigits, if_pos h0]
    have : ('0' : Char).toNat - 48 = 0 := by decide
    rw [this]
    exact parseDigits_stop 0 rest hrest
  · obtain ⟨hmem, hfold, _⟩ := printNatAux_spec (n + 1) n (Nat.lt_succ_self n)
    rw [printNat, if_neg h, parseDigits_digits (printNatAux (n + 1) n []) 0 rest hmem hrest,
      hfold 0]
    simp

theorem printNat_head (n : Nat) :
    ∃ c cs, printNat n = c :: cs ∧ ∃ d, d < 10 ∧ c = digitChar d := by
  by_cases h : n = 0
  · subst h
    exact ⟨'0', [], rfl, 0, by omega, by decide⟩
  · obtain ⟨hmem, _, hne⟩ := printNatAux_spec (n + 1) n (Nat.lt_succ_self n)
    rw [printNat, if_neg h]
    cases hL : printNatAux (n + 1) n [] with
    | nil => exact absurd hL (hne h)
    | cons c cs =>
      refine ⟨c, cs, rfl, ?_⟩
      exact hmem c (by rw [hL]; simp)

theorem escList_parse : ∀ (cs rest : List Char),
    parseStringRest (escList cs ++ '\"' :: rest) = some (cs, rest)
  | [], rest => by
    simp only [escList, List.nil_append]
    rw [parseStringRest.eq_def]
    simp
  | c :: cs, rest => by
    have ih := escList_parse cs rest
    by_cases h1 : c = '\"'
    · subst h1
      simp only [escList, escapeChar, if_pos]
      rw [List.append_assoc, List.cons_append, List.cons_append, List.nil_append,
        parseStringRest.eq_def]
      simp [escSimple, ih]
    · by_cases h2 : c = '\\'
      · subst h2
        simp [escList, escapeChar, List.append_assoc]
        rw [parseStringRest.eq_def]
        simp [escSimple, ih]
      · by_cases h3 : c = '\n'
        · subst h3
          simp [escList, escapeChar, List.append_assoc]
          rw [parseStringRest.eq_def]
          simp [escSimple, ih]
        · by_cases h4 : c = '\t'
          · subst h4
            simp [escList, escapeChar, List.append_assoc]
            rw [parseStringRest.eq_def]
            simp [escSimple, ih]
          · by_cases h5 : c = '\r'
            · subst h5
              simp [escList, escapeChar, List.append_assoc]
              rw [parseStringRest.eq_def]
              simp [escSimple, ih]
            · by_cases h6 : c = '\x08'
              · subst h6
                simp [escList, escapeChar, List.append_assoc]
                rw [parseStringRest.eq_def]
                simp [escSimple, ih]
              · by_cases h7 : c = '\x0c'
                · subst h7
                  simp [escList, escapeChar, List.append_assoc]
                  rw [parseStringRest.eq_def]
                  simp [escSimple, ih]
                · by_cases h8 : c.toNat < 32
                  · have ht16 : c.toNat / 16 < 16 := by omega
                    have hm16 : c.toNat % 16 < 16 := by omega
                    have harith : c.toNat / 16 * 16 + c.toNat % 16 = c.toNat := by omega
                    have harith2 :
                        ((0 * 16 + 0) * 16 + c.toNat / 16) * 16 + c.toNat % 16 = c.toNat := by
                      omega
                    simp [escList, escapeChar, h1, h2, h3, h4, h5, h6, h7, h8,
                      List.append_assoc]
                    rw [parseStringRest.eq_def]
                    simp [hexVal_hexDigitChar _ ht16, hexVal_hexDigitChar _ hm16,
                      (by decide : hexVal '0' = some 0), harith, harith2,
                      Char.ofNat_toNat, ih]
                  · simp [escList, escapeChar, h1, h2, h3, h4, h5, h6, h7, h8,
                      List.append_assoc]
                    rw [parseStringRest.eq_def]
                    simp [h1, h2, ih]

theorem dumpJson_head (j : Json) : ∃ c cs, dumpJson j = c :: cs ∧
    (c = 'n' ∨ c = 't' ∨ c = 'f' ∨ c = '\"' ∨ c = '[' ∨ c = '\x7b' ∨ c = '-' ∨
     ∃ d, d < 10 ∧ c = digitChar d) := by
  cases j with
  | null => exact ⟨'n', _, rfl, Or.inl rfl⟩
  | bool b =>
    cases b with
    | true => exact ⟨'t', _, rfl, Or.inr (Or.inl rfl)⟩
    | false => exact ⟨'f', _, rfl, Or.inr (Or.inr (Or.inl rfl))⟩
  | int n =>
    cases n with
    | ofNat m =>
      obtain ⟨c, cs, hpn, d, hd, hc⟩ := printNat_head m
      refine ⟨c, cs, ?_, Or.inr (Or.inr (Or.inr (Or.inr (Or.inr (Or.inr (Or.inr
        ⟨d, hd, hc⟩))))))⟩
      simp [dumpJson, dumpInt, hpn]
    | negSucc m =>
      refine ⟨'-', printNat (m + 1), ?_,
        Or.inr (Or.inr (Or.inr (Or.inr (Or.inr (Or.inr (Or.inl rfl))))))⟩
      simp [dumpJson, dumpInt]
  | str s =>
    exact ⟨'\"', escList s.data ++ ['\"'], by simp [dumpJson, dumpStr],
      Or.inr (Or.inr (Or.inr (Or.inl rfl)))⟩
  | arr xs =>
    exact ⟨'[', dumpArr xs ++ [']'], by simp [dumpJson],
      Or.inr (Or.inr (Or.inr (Or.inr (Or.inl rfl))))⟩
  | obj m =>
    exact ⟨'\x7b', dumpObj m ++ ['\x7d'], by simp [dumpJson],
      Or.inr (Or.inr (Or.inr (Or.inr (Or.inr (Or.inl rfl)))))⟩

theorem dumpJson_head_facts (j : Json) :
    ∃ c cs, dumpJson j = c :: cs ∧ isWsChar c = false ∧ c ≠ ']' := by
  obtain ⟨c, cs, hj, hd⟩ := dumpJson_head j
  refine ⟨c, cs, hj, ?_, ?_⟩
  · rcases hd with rfl | rfl | rfl | rfl | rfl | rfl | rfl | ⟨d, hd10, rfl⟩
    · decide
    · decide
    · decide
    · decide
    · decide
    · decide
    · decide
    · exact digitChar_not_ws d hd10
  · rcases hd with rfl | rfl | rfl | rfl | rfl | rfl | rfl | ⟨d, hd10, rfl⟩
    · decide
    · decide
    · decide
    · decide
    · decide
    · decide
    · decide
    · exact (digitChar_ne d hd10).2.2.2.2.2.2.2.1

theorem odFold : ∀ (m acc : List (String × Json)),
    jwfObj m = true → (∀ e ∈ acc, ∀ kv ∈ m, ¬ e.1 = kv.1) →
    m.foldl (fun d kv => ordSet d kv.1 kv.2) acc = acc ++ m
  | [], acc, _, _ => by simp
  | (k, v) :: tl, acc, hwf, hdisj => by
    have hfind : (acc.find? (fun e => decide (e.1 = k))).isSome = false := by
      rw [Bool.eq_false_iff]
      intro hs
      obtain ⟨e, he, hek⟩ := List.find?_isSome.mp hs
      exact hdisj e he (k, v) (by simp) (by simpa using hek)
    have hstep : ordSet acc k v = acc ++ [(k, v)] := by
      simp only [ordSet, hfind]
      simp
    have hwf2 : jwfObj tl = true := by
      simp only [jwfObj, Bool.and_eq_true] at hwf
      exact hwf.2
    have hall : ∀ kv2 ∈ tl, ¬ kv2.1 = k := by
      simp only [jwfObj, Bool.and_eq_true] at hwf
      intro kv2 hkv2
      have := (List.all_eq_true.mp hwf.1.1) kv2 hkv2
      simpa using this
    have hdisj2 : ∀ e ∈ acc ++ [(k, v)], ∀ kv2 ∈ tl, ¬ e.1 = kv2.1 := by
      intro e he kv2 hkv2
      rcases List.mem_append.mp he with he | he
      · exact hdisj e he kv2 (by simp [hkv2])
      · have : e = (k, v) := by simpa using he
        subst this
        intro hc
        exact hall kv2 hkv2 (by simp [hc.symm])
    calc ((k, v) :: tl).foldl (fun d kv => ordSet d kv.1 kv.2) acc
        = tl.foldl (fun d kv => ordSet d kv.1 kv.2) (ordSet acc k v) := by simp
      _ = (acc ++ [(k, v)]) ++ tl := by rw [hstep]; exact odFold tl (acc ++ [(k, v)]) hwf2 hdisj2
      _ = acc ++ (k, v) :: tl := by simp

theorem odFromPairs_id (m : List (String × Json)) (h : jwfObj m = true) :
    odFromPairs m = m := by
  have := odFold m [] h (by simp)
  simpa [odFromPairs] using this

theorem parse_roundtrip : ∀ f : Nat,
    (∀ (j : Json) (pre rest : List Char), jwf j = true → wsOnly pre = true →
      numSafe rest = true → (dumpJson j).length + 1 ≤ f →
      parseVal f (pre ++ (dumpJson j ++ rest)) = some (j, rest)) ∧
    (∀ (xs : List Json) (pre rest : List Char), xs ≠ [] → jwfArr xs = true →
      wsOnly pre = true → (dumpArr xs).length + 2 ≤ f →
      parseElems f (pre ++ (dumpArr xs ++ ']' :: rest)) = some (xs, rest)) ∧
    (∀ (m : List (String × Json)) (pre rest : List Char), m ≠ [] → jwfObj m = true →
      wsOnly pre = true → (dumpObj m).length + 2 ≤ f →
      parseMembers f (pre ++ (dumpObj m ++ '\x7d' :: rest)) = some (m, rest)) := by
  intro f
  induction f using Nat.strong_induction_on with
  | _ f ih =>
    refine ⟨?_, ?_, ?_⟩
    · -- values
      intro j pre rest hwf hpre hrest hf
      cases f with
      | zero => omega
      | succ f1 =>
        cases j with
        | null =>
          have heq : dumpJson Json.null ++ rest = 'n' :: 'u' :: 'l' :: 'l' :: rest := by
            simp [dumpJson]
          have hsk : skipWs (pre ++ (dumpJson Json.null ++ rest))
              = 'n' :: 'u' :: 'l' :: 'l' :: rest := by
            rw [skipWs_ws_front pre hpre, heq]
            exact skipWs_not_ws _ _ (by decide)
          simp [parseVal, hsk, expectChars]
        | bool b =>
          cases b with
          | true =>
            have heq : dumpJson (Json.bool true) ++ rest
                = 't' :: 'r' :: 'u' :: 'e' :: rest := by simp [dumpJson]
            have hsk : skipWs (pre ++ (dumpJson (Json.bool true) ++ rest))
                = 't' :: 'r' :: 'u' :: 'e' :: rest := by
              rw [skipWs_ws_front pre hpre, heq]
              exact skipWs_not_ws _ _ (by decide)
            simp [parseVal, hsk, expectChars]
          | false =>
            have heq : dumpJson (Json.bool false) ++ rest
                = 'f' :: 'a' :: 'l' :: 's' :: 'e' :: rest := by simp [dumpJson]
            have hsk : skipWs (pre ++ (dumpJson (Json.bool false) ++ rest))
                = 'f' :: 'a' :: 'l' :: 's' :: 'e' :: rest := by
              rw [skipWs_ws_front pre hpre, heq]
              exact skipWs_not_ws _ _ (by decide)
            simp [parseVal, hsk, expectChars]
        | str s =>
          have heq : dumpJson (Json.str s) ++ rest
              = '\"' :: (escList s.data ++ ('\"' :: rest)) := by
            simp [dumpJson, dumpStr]
          have hsk : skipWs (pre ++ (dumpJson (Json.str s) ++ rest))
              = '\"' :: (escList s.data ++ ('\"' :: rest)) := by
            rw [skipWs_ws_front pre hpre, heq]
            exact skipWs_not_ws _ _ (by decide)
          have hps := escList_parse s.data rest
          have hmk : String.mk s.data = s := rfl
          simp [parseVal, hsk, hps, hmk]
        | int n =>
          cases n with
          | ofNat m =>
            obtain ⟨c, cs, hpn, d, hd, hc⟩ := printNat_head m
            subst hc
            have hdj : dumpJson (Json.int (Int.ofNat m)) = digitChar d :: cs := by
              simp [dumpJson, dumpInt, hpn]
            have hsk : skipWs (pre ++ (dumpJson (Json.int (Int.ofNat m)) ++ rest))
                = digitChar d :: (cs ++ rest) := by
              rw [skipWs_ws_front pre hpre, hdj, List.cons_append]
              exact skipWs_not_ws _ _ (digitChar_not_ws d hd)
            have hne := digitChar_ne d hd
            have hdig := digitChar_isDigit d hd
            have hpd : parseDigits 0 (digitChar d :: (cs ++ rest)) = (m, rest) := by
              have harg : digitChar d :: (cs ++ rest) = printNat m ++ rest := by
                rw [hpn]; rfl
              rw [harg]
              exact printNat_parse m rest hrest
            simp only [Int.ofNat_eq_coe] at hsk
            simp [parseVal, hsk, hne.1, hne.2.1, hne.2.2.1, hne.2.2.2.1, hne.2.2.2.2.1,
              hne.2.2.2.2.2.1, hne.2.2.2.2.2.2.1, hdig, hpd]
          | negSucc m =>
            obtain ⟨c2, cs2, hpn, d, hd, hc⟩ := printNat_head (m + 1)
            subst hc
            have hdj : dumpJson (Json.int (Int.negSucc m)) = '-' :: printNat (m + 1) := by
              simp [dumpJson, dumpInt]
            have hsk : skipWs (pre ++ (dumpJson (Json.int (Int.negSucc m)) ++ rest))
                = '-' :: (printNat (m + 1) ++ rest) := by
              rw [skipWs_ws_front pre hpre, hdj, List.cons_append]
              exact skipWs_not_ws _ _ (by decide)
            have hdig := digitChar_isDigit d hd
            have hsplit : printNat (m + 1) ++ rest = digitChar d :: (cs2 ++ rest) := by
              rw [hpn]; rfl
            have hpd2 : parseDigits 0 (digitChar d :: (cs2 ++ rest)) = (m + 1, rest) := by
              rw [← hsplit]
              exact printNat_parse (m + 1) rest hrest
            have hval : -(((m + 1 : Nat)) : Int) = Int.negSucc m := by
              simp [Int.negSucc_eq]
            simp [parseVal, hsk, hsplit, hdig, hpd2, hval]
            omega
        | arr xs =>
          cases xs with
          | nil =>
            have heq : dumpJson (Json.arr []) ++ rest = '[' :: ']' :: rest := by
              simp [dumpJson, dumpArr]
            have hsk : skipWs (pre ++ (dumpJson (Json.arr []) ++ rest))
                = '[' :: ']' :: rest := by
              rw [skipWs_ws_front pre hpre, heq]
              exact skipWs_not_ws _ _ (by decide)
            simp [parseVal, hsk, skipWs, isWsChar]
          | cons x xs2 =>
            obtain ⟨cx, csx, hx, hxnw, hxne⟩ := dumpJson_head_facts x
            have heq : dumpJson (Json.arr (x :: xs2)) ++ rest
                = '[' :: (dumpArr (x :: xs2) ++ (']' :: rest)) := by simp [dumpJson]
            have hsk : skipWs (pre ++ (dumpJson (Json.arr (x :: xs2)) ++ rest))
                = '[' :: (dumpArr (x :: xs2) ++ (']' :: rest)) := by
              rw [skipWs_ws_front pre hpre, heq]
              exact skipWs_not_ws _ _ (by decide)
            have hsplit : dumpArr (x :: xs2) ++ (']' :: rest)
                = cx :: (csx ++ (dumpArrRest xs2 ++ (']' :: rest))) := by
              simp [dumpArr, hx]
            have hsk2 : skipWs (dumpArr (x :: xs2) ++ (']' :: rest))
                = cx :: (csx ++ (dumpArrRest xs2 ++ (']' :: rest))) := by
              rw [hsplit]
              exact skipWs_not_ws _ _ hxnw
            have hflen : (dumpArr (x :: xs2)).length + 2 ≤ f1 := by
              have h1 : (dumpJson (Json.arr (x :: xs2))).length
                  = (dumpArr (x :: xs2)).length + 2 := by simp [dumpJson]
              omega
            have hwfa : jwfArr (x :: xs2) = true := by simpa [jwf] using hwf
            have hpe := (ih f1 (by omega)).2.1 (x :: xs2) [] rest (by simp) hwfa rfl hflen
            have hpe2 : parseElems f1 (cx :: (csx ++ (dumpArrRest xs2 ++ (']' :: rest))))
                = some (x :: xs2, rest) := by
              rw [← hsplit]
              simpa using hpe
            simp [parseVal, hsk, hsk2, hxne, hpe2]
        | obj m =>
          cases m with
          | nil =>
            have heq : dumpJson (Json.obj []) ++ rest = '\x7b' :: '\x7d' :: rest := by
              simp [dumpJson, dumpObj]
            have hsk : skipWs (pre ++ (dumpJson (Json.obj []) ++ rest))
                = '\x7b' :: '\x7d' :: rest := by
              rw [skipWs_ws_front pre hpre, heq]
              exact skipWs_not_ws _ _ (by decide)
            simp [parseVal, hsk, skipWs, isWsChar, odFromPairs]
          | cons kv tl =>
            obtain ⟨k, v⟩ := kv
            have heq : dumpJson (Json.obj ((k, v) :: tl)) ++ rest
                = '\x7b' :: (dumpObj ((k, v) :: tl) ++ ('\x7d' :: rest)) := by
              simp [dumpJson]
            have hsk : skipWs (pre ++ (dumpJson (Json.obj ((k, v) :: tl)) ++ rest))
                = '\x7b' :: (dumpObj ((k, v) :: tl) ++ ('\x7d' :: rest)) := by
              rw [skipWs_ws_front pre hpre, heq]
              exact skipWs_not_ws _ _ (by decide)
            have hobj : dumpObj ((k, v) :: tl) ++ ('\x7d' :: rest)
                = '\"' :: ((escList k.data ++ ('\"' :: (':' :: ' ' :: (dumpJson v
                    ++ (dumpObjRest tl ++ ('\x7d' :: rest))))))) := by
              simp [dumpObj, dumpStr]
            have hsk2 : skipWs (dumpObj ((k, v) :: tl) ++ ('\x7d' :: rest))
                = '\"' :: ((escList k.data ++ ('\"' :: (':' :: ' ' :: (dumpJson v
                    ++ (dumpObjRest tl ++ ('\x7d' :: rest))))))) := by
              rw [hobj]
              exact skipWs_not_ws _ _ (by decide)
            have hflen : (dumpObj ((k, v) :: tl)).length + 2 ≤ f1 := by
              have h1 : (dumpJson (Json.obj ((k, v) :: tl))).length
                  = (dumpObj ((k, v) :: tl)).length + 2 := by simp [dumpJson]
              omega
            have hwfo : jwfObj ((k, v) :: tl) = true := by simpa [jwf] using hwf
            have hpm := (ih f1 (by omega)).2.2 ((k, v) :: tl) [] rest (by simp) hwfo rfl hflen
            have hpm2 : parseMembers f1 ('\"' :: ((escList k.data ++ ('\"' :: (':' :: ' '
                :: (dumpJson v ++ (dumpObjRest tl ++ ('\x7d' :: rest))))))))
                = some ((k, v) :: tl, rest) := by
              rw [← hobj]
              simpa using hpm
            simp [parseVal, hsk, hsk2, hpm2, odFromPairs_id _ hwfo]
    · -- array elements
      intro xs pre rest hne hwf hpre hf
      cases f with
      | zero => omega
      | succ f1 =>
        cases xs with
        | nil => exact absurd rfl hne
        | cons x xs2 =>
          have hshape : pre ++ (dumpArr (x :: xs2) ++ ']' :: rest)
              = pre ++ (dumpJson x ++ (dumpArrRest xs2 ++ ']' :: rest)) := by
            simp [dumpArr]
          have hnum : numSafe (dumpArrRest xs2 ++ ']' :: rest) = true := by
            cases xs2 with
            | nil => simp [dumpArrRest, numSafe]
            | cons y ys => simp [dumpArrRest, numSafe]
          have hwfx : jwf x = true ∧ jwfArr xs2 = true := by
            simpa [jwfArr, Bool.and_eq_true] using hwf
          have hfx : (dumpJson x).length + 1 ≤ f1 := by
            have h1 : (dumpArr (x :: xs2)).length
                = (dumpJson x).length + (dumpArrRest xs2).length := by simp [dumpArr]
            omega
          have hpv := (ih f1 (by omega)).1 x pre (dumpArrRest xs2 ++ ']' :: rest)
            hwfx.1 hpre hnum hfx
          rw [hshape]
          simp only [parseElems]
          rw [hpv]
          cases xs2 with
          | nil =>
            have hr : dumpArrRest ([] : List Json) ++ ']' :: rest = ']' :: rest := by
              simp [dumpArrRest]
            rw [hr]
            simp [skipWs, isWsChar]
          | cons y ys =>
            have hr : dumpArrRest (y :: ys) ++ ']' :: rest
                = ',' :: ' ' :: (dumpArr (y :: ys) ++ ']' :: rest) := by
              simp [dumpArrRest, dumpArr]
            have hfy : (dumpArr (y :: ys)).length + 2 ≤ f1 := by
              have h1 : (dumpArr (x :: y :: ys)).length
                  = (dumpJson x).length + (dumpArrRest (y :: ys)).length := by simp [dumpArr]
              have h2 : (dumpArrRest (y :: ys)).length = (dumpArr (y :: ys)).length + 2 := by
                simp only [dumpArrRest, dumpArr, List.length_cons, List.length_append]
              omega
            have hpe := (ih f1 (by omega)).2.1 (y :: ys) [' '] rest (by simp) hwfx.2
              (by decide) hfy
            have hpe2 : parseElems f1 (' ' :: (dumpArr (y :: ys) ++ ']' :: rest))
                = some (y :: ys, rest) := by simpa using hpe
            rw [hr]
            simp [skipWs, isWsChar, hpe2]
    · -- object members
      intro m pre rest hne hwf hpre hf
      cases f with
      | zero => omega
      | succ f1 =>
        cases m with
        | nil => exact absurd rfl hne
        | cons kv tl =>
          obtain ⟨k, v⟩ := kv
          have hobj : dumpObj ((k, v) :: tl) ++ '\x7d' :: rest
              = '\"' :: (escList k.data ++ ('\"' :: (':' :: ' ' :: (dumpJson v
                  ++ (dumpObjRest tl ++ '\x7d' :: rest))))) := by
            simp [dumpObj, dumpStr]
          have hsk : skipWs (pre ++ (dumpObj ((k, v) :: tl) ++ '\x7d' :: rest))
              = '\"' :: (escList k.data ++ ('\"' :: (':' :: ' ' :: (dumpJson v
                  ++ (dumpObjRest tl ++ '\x7d' :: rest))))) := by
            rw [skipWs_ws_front pre hpre, hobj]
            exact skipWs_not_ws _ _ (by decide)
          have hps := escList_parse k.data
            (':' :: ' ' :: (dumpJson v ++ (dumpObjRest tl ++ '\x7d' :: rest)))
          have hnum : numSafe (dumpObjRest tl ++ '\x7d' :: rest) = true := by
            cases tl with
            | nil => simp [dumpObjRest, numSafe]
            | cons kv2 tl2 =>
              obtain ⟨k2, v2⟩ := kv2
              simp [dumpObjRest, numSafe]
          have hwf3 : jwf v = true ∧ jwfObj tl = true := by
            have := hwf
            simp only [jwfObj, Bool.and_eq_true] at this
            exact ⟨this.1.2, this.2⟩
          have hfv : (dumpJson v).length + 1 ≤ f1 := by
            have h1 : (dumpObj ((k, v) :: tl)).length
                = (dumpStr k).length + 2 + (dumpJson v).length + (dumpObjRest tl).length := by
              simp only [dumpObj, List.length_append, List.length_cons]
              omega
            omega
          have hpv := (ih f1 (by omega)).1 v [' '] (dumpObjRest tl ++ '\x7d' :: rest)
            hwf3.1 (by decide) hnum hfv
          have hpv2 : parseVal f1 (' ' :: (dumpJson v ++ (dumpObjRest tl ++ '\x7d' :: rest)))
              = some (v, dumpObjRest tl ++ '\x7d' :: rest) := by simpa using hpv
          have hmk : String.mk k.data = k := rfl
          cases tl with
          | nil =>
            have hr : dumpObjRest ([] : List (String × Json)) ++ '\x7d' :: rest
                = '\x7d' :: rest := by simp [dumpObjRest]
            rw [hr] at hsk hps hpv2
            simp [parseMembers, hsk, hps, skipWs, isWsChar, hpv2, hmk]
          | cons kv2 tl2 =>
            obtain ⟨k2, v2⟩ := kv2
            have hr : dumpObjRest ((k2, v2) :: tl2) ++ '\x7d' :: rest
                = ',' :: ' ' :: (dumpObj ((k2, v2) :: tl2) ++ '\x7d' :: rest) := by
              simp [dumpObjRest, dumpObj]
            have hftl : (dumpObj ((k2, v2) :: tl2)).length + 2 ≤ f1 := by
              have h1 : (dumpObj ((k, v) :: (k2, v2) :: tl2)).length
                  = (dumpStr k).length + 2 + (dumpJson v).length
                    + (dumpObjRest ((k2, v2) :: tl2)).length := by
                simp only [dumpObj, List.length_append, List.length_cons]
                omega
              have h2 : (dumpObjRest ((k2, v2) :: tl2)).length
                  = (dumpObj ((k2, v2) :: tl2)).length + 2 := by
                simp only [dumpObjRest, dumpObj, List.length_append, List.length_cons]
                omega
              omega
            have hpm := (ih f1 (by omega)).2.2 ((k2, v2) :: tl2) [' '] rest (by simp)
              hwf3.2 (by decide) hftl
            have hpm2 : parseMembers f1 (' ' :: (dumpObj ((k2, v2) :: tl2) ++ '\x7d' :: rest))
                = some ((k2, v2) :: tl2, rest) := by simpa using hpm
            rw [hr] at hsk hps hpv2
            simp [parseMembers, hsk, hps, skipWs, isWsChar, hpv2, hpm2, hmk]

theorem loads_dumps (j : Json) (h : jwf j = true) : loads (dumps j) = some j := by
  have hp := (parse_roundtrip ((dumpJson j).length + 1)).1 j [] [] h rfl rfl (le_refl _)
  simp only [List.nil_append, List.append_nil] at hp
  simp [loads, dumps, hp, skipWs]

/-- C3: for the snapshot JSON accessor, for every node and every
JSON-serializable order-preserving mapping (a key/value sequence whose
objects, at any depth, have no duplicate keys), `set` followed by `get`
returns a mapping equal to the one stored, with the same key order. -/
theorem claim_C3 (s : Scene) (obj a : String) (kvs : List (String × Json))
    (h : jwf (Json.obj kvs) = true) :
    (jsonAccessGet obj a (jsonAccessSet obj a (Json.obj kvs) s)).1
      = some (Json.obj kvs) := by
  have hget : (getStringAttr obj a (setStringAttr obj a (some (dumps (Json.obj kvs))) s)).1
      = PyVal.str (dumps (Json.obj kvs)) := getStringAttr_setStringAttr s obj a _
  have hne : dumps (Json.obj kvs) ≠ "" := by
    unfold dumps
    intro hc
    have hdata : dumpJson (Json.obj kvs) = [] := congrArg String.data hc
    simp [dumpJson] at hdata
  have hfalsy : (PyVal.str (dumps (Json.obj kvs))).falsy = false := by
    simp [PyVal.falsy, hne]
  simp [jsonAccessGet, jsonAccessSet, hget, hfalsy, loads_dumps _ h]

/-- Witness for C3 at a concrete one-entry mapping on the empty scene. -/
theorem claim_C3_witness :
    jwf (Json.obj [("a", Json.int 1)]) = true ∧
    (jsonAccessGet "n" "d"
        (jsonAccessSet "n" "d" (Json.obj [("a", Json.int 1)]) ([] : Scene))).1
      = some (Json.obj [("a", Json.int 1)]) :=
  ⟨rfl, claim_C3 ([] : Scene) "n" "d" [("a", Json.int 1)] rfl⟩
